import Mathlib

/-!
# SecureStorage — shallow embedding and verification

A shallow embedding of the core of the SecureStorage C++ library
(`SecureStore`, `Encryptor`, `FileUtil`, `FileWatcher`) together with
proofs of the behavioural properties stated in the specification.

Modelling conventions:
* byte buffers (`std::vector<unsigned char>`) are `List Nat`;
* strings/paths (`std::string`) are `List Char`;
* the filesystem is an association list from full paths to file contents;
  only regular files are modelled (directories are implicit in path syntax);
* environmental failures of `open`-for-write and `rename` are injected
  through an oracle (`Env`); a run with `Env.noFail` is a fault-free run;
* the mbedTLS AES-256-GCM primitive is external to the repository and is
  modelled as an abstract AEAD core (`Cipher`) carrying the interface
  contract the library relies on (ciphertext length preservation, 16-byte
  tag, decryption inverting encryption); the CTR-DRBG nonce source is an
  abstract stream `Nat → List Nat`.
-/

namespace SecureStorage

/-- Byte buffers (`std::vector<unsigned char>`). -/
abbrev Bytes := List Nat

/-- Strings and paths (`std::string`). -/
abbrev Str := List Char

/-- The error taxonomy (`Error::Errc`), restricted to the codes reachable
from the embedded operations. -/
inductive Errc where
  | Success
  | UnknownError
  | InvalidArgument
  | NotInitialized
  | OperationFailed
  | FileOpenFailed
  | FileReadFailed
  | FileWriteFailed
  | FileRemoveFailed
  | FileRenameFailed
  | EncryptionFailed
  | DecryptionFailed
  | AuthenticationFailed
  | KeyDerivationFailed
  | InvalidKey
  | CryptoLibraryError
  | DataNotFound
  deriving DecidableEq, Repr

/-- Character occurrence, `std::string::find(char) != npos`. -/
def strHasChar : Str → Char → Bool
  | [], _ => false
  | c :: rest, t => if c = t then true else strHasChar rest t

/-- Occurrence of the two-character substring `".."`,
`std::string::find("..") != npos`. -/
def hasDotDot : Str → Bool
  | [] => false
  | _ :: [] => false
  | c1 :: c2 :: rest =>
    if c1 = '.' ∧ c2 = '.' then true else hasDotDot (c2 :: rest)

/-- Suffix test `filename.substr(filename.length() - k) == suffix` for a suffix of
length `k` — suffix test used by `listDataIds`. -/
def strEndsWith (s suffixStr : Str) : Bool :=
  s.drop (s.length - suffixStr.length) = suffixStr

/-- Test that `s` starts with `pre` (used to decide directory membership of a
path in the filesystem model). -/
def strStartsWith : Str → Str → Bool
  | _, [] => true
  | [], _ :: _ => false
  | c :: cs, p :: ps => if p = c then strStartsWith cs ps else false

/-- Lexicographic `operator<=` on strings, as used by `std::sort`
(via `operator<`). -/
def strLe : Str → Str → Bool
  | [], _ => true
  | _ :: _, [] => false
  | a :: as, b :: bs => if a = b then strLe as bs else decide (a < b)

/-! ## Filesystem model -/

/-- The filesystem: an association list from full paths to contents.
The path of an entry is unique in any state produced by the operations. -/
abbrev Fs := List (Str × Bytes)

/-- Look a path up in the filesystem. -/
def fsLookup : Fs → Str → Option Bytes
  | [], _ => none
  | (q, d) :: rest, p => if q = p then some d else fsLookup rest p

/-- Remove every entry at a path. -/
def fsErase : Fs → Str → Fs
  | [], _ => []
  | (q, d) :: rest, p => if q = p then fsErase rest p else (q, d) :: fsErase rest p

/-- Create or replace the file at a path. -/
def fsInsert (fs : Fs) (p : Str) (d : Bytes) : Fs :=
  (p, d) :: fsErase fs p

/-- Embeds `FileUtil::pathExists` — `stat` succeeds on the path. -/
def pathExists (fs : Fs) (p : Str) : Bool :=
  (fsLookup fs p).isSome

/-- Embeds `std::rename(a, b)`: move the contents of `a` to `b` (replacing `b`).
Only invoked on paths known to exist; a missing source leaves the state
unchanged. -/
def fsRename (fs : Fs) (a b : Str) : Fs :=
  match fsLookup fs a with
  | none => fs
  | some d => fsInsert (fsErase fs a) b d

/-- Environmental fault oracle: which `open`-for-write calls and which
`rename` calls fail for reasons external to the program (permissions,
disk full, ...). -/
structure Env where
  failOpenW : Str → Bool
  failRename : Str → Str → Bool

/-- A fault-free environment. -/
def Env.noFail (e : Env) : Prop :=
  (∀ p, e.failOpenW p = false) ∧ (∀ a b, e.failRename a b = false)

/-! ## `FileUtil` (src/utils/FileUtil.cpp) -/

namespace FileUtil

/-- The low-level filesystem actions performed by `atomicWriteFile`, in
program order, recorded so that durability claims can be stated. -/
inductive WAction where
  | openTmp (p : Str)
  | writeBytes (p : Str) (d : Bytes)
  | flushClose (p : Str)
  | fsyncFile (p : Str)
  | renameTo (src dst : Str)
  | fsyncDir (p : Str)
  | removeTmp (p : Str)
  deriving DecidableEq, Repr

/-- Embeds `FileUtil::atomicWriteFile`, instrumented with the trace of low-level
actions it performs.  Translated from `FileUtil.cpp:25-93`: write the
whole buffer to `filepath + ".tmp"` via `std::ofstream` (create, write,
flush, close — the fsync of the file and of the parent directory present
in the design notes are not performed by the code), then `std::rename`
the temp file onto `filepath`, removing the temp file on any failure. -/
def atomicWriteFileT (env : Env) (fs : Fs) (filepath : Str) (data : Bytes) :
    Errc × Fs × List WAction :=
  if filepath = [] then
    (Errc.InvalidArgument, fs, [])
  else
    let tmp := filepath ++ ".tmp".toList
    if env.failOpenW tmp then
      (Errc.FileOpenFailed, fs, [WAction.openTmp tmp])
    else
      let fs1 := fsInsert fs tmp data
      if env.failRename tmp filepath then
        (Errc.FileRenameFailed, fsErase fs1 tmp,
          [WAction.openTmp tmp, WAction.writeBytes tmp data,
           WAction.flushClose tmp, WAction.renameTo tmp filepath,
           WAction.removeTmp tmp])
      else
        (Errc.Success, fsRename fs1 tmp filepath,
          [WAction.openTmp tmp, WAction.writeBytes tmp data,
           WAction.flushClose tmp, WAction.renameTo tmp filepath])

/-- Embeds `FileUtil::atomicWriteFile` — result and filesystem effect only. -/
def atomicWriteFile (env : Env) (fs : Fs) (filepath : Str) (data : Bytes) :
    Errc × Fs :=
  ((atomicWriteFileT env fs filepath data).1,
   (atomicWriteFileT env fs filepath data).2.1)

/-- Embeds `FileUtil::readFile` — full-file read; a missing file fails to open,
an empty file reads as empty bytes. -/
def readFile (fs : Fs) (filepath : Str) : Errc × Bytes :=
  if filepath = [] then
    (Errc.InvalidArgument, [])
  else
    match fsLookup fs filepath with
    | none => (Errc.FileOpenFailed, [])
    | some d => (Errc.Success, d)

/-- Embeds `FileUtil::deleteFile` — idempotent removal; a missing file is
success. -/
def deleteFile (fs : Fs) (filepath : Str) : Errc × Fs :=
  if filepath = [] then
    (Errc.InvalidArgument, fs)
  else if pathExists fs filepath then
    (Errc.Success, fsErase fs filepath)
  else
    (Errc.Success, fs)

end FileUtil

/-! ## Crypto (src/crypto/KeyProvider.cpp, Encryptor part; unnamed/part_007) -/

namespace Crypto

/-- Constant `AES_GCM_KEY_SIZE_BYTES`. -/
def AES_GCM_KEY_SIZE_BYTES : Nat := 32
/-- Constant `AES_GCM_IV_SIZE_BYTES`. -/
def AES_GCM_IV_SIZE_BYTES : Nat := 12
/-- Constant `AES_GCM_TAG_SIZE_BYTES`. -/
def AES_GCM_TAG_SIZE_BYTES : Nat := 16

/-- Outcome of `mbedtls_gcm_auth_decrypt`: success with the plaintext,
`MBEDTLS_ERR_GCM_AUTH_FAILED`, or any other nonzero return. -/
inductive DecResult where
  | ok (pt : Bytes)
  | authFail
  | fail
  deriving DecidableEq, Repr

/-- The AES-256-GCM core (`mbedtls_gcm_crypt_and_tag` /
`mbedtls_gcm_auth_decrypt`).  The primitive lives outside this
repository; it is embedded as an abstract AEAD carrying exactly the
interface contract the library relies on: the ciphertext is as long as
the plaintext, the tag is 16 bytes, and decryption with the same key and
nonce inverts encryption.  `enc key nonce pt = none` models a failing
primitive call (`EncryptionFailed` path). -/
structure Cipher where
  enc : Bytes → Bytes → Bytes → Option (Bytes × Bytes)
  dec : Bytes → Bytes → Bytes → Bytes → DecResult
  enc_ct_length : ∀ k n p ct tag, enc k n p = some (ct, tag) → ct.length = p.length
  enc_tag_length : ∀ k n p ct tag, enc k n p = some (ct, tag) → tag.length = 16
  dec_enc : ∀ k n p ct tag, enc k n p = some (ct, tag) → dec k n ct tag = DecResult.ok p

/-- State of `Crypto::Encryptor`: the seeded-DRBG flag, the DRBG output
stream (successive `generateIv` results), the number of nonces consumed
so far, and the GCM core. -/
structure Encryptor where
  cipher : Cipher
  initialized : Bool
  rng : Nat → Bytes
  ctr : Nat

/-- Embeds `Encryptor::encrypt` (`KeyProvider.cpp:229-294` of the combined
translation unit): reject when unseeded or when the key is not 32 bytes,
sample a fresh nonce, and emit `nonce ++ ciphertext ++ tag`.  Returns
the result code, the output buffer, and the updated encryptor (the DRBG
has advanced). -/
def Encryptor.encrypt (e : Encryptor) (plaintext key : Bytes) :
    Errc × Bytes × Encryptor :=
  if ¬ e.initialized then
    (Errc.NotInitialized, [], e)
  else if key.length ≠ AES_GCM_KEY_SIZE_BYTES then
    (Errc.InvalidKey, [], e)
  else
    -- `generateIv` samples `e.rng e.ctr` and advances the DRBG
    match e.cipher.enc key (e.rng e.ctr) plaintext with
    | none => (Errc.EncryptionFailed, [], { e with ctr := e.ctr + 1 })
    | some (ct, tag) =>
      (Errc.Success, e.rng e.ctr ++ ct ++ tag, { e with ctr := e.ctr + 1 })

/-- Embeds `Encryptor::decrypt` (`KeyProvider.cpp:296-359` of the combined
translation unit): reject when unseeded, when the key is not 32 bytes or
when the buffer is shorter than nonce+tag; otherwise split the buffer
as `nonce ++ ciphertext ++ tag` and authenticate-and-decrypt. -/
def Encryptor.decrypt (e : Encryptor) (inputBuffer key : Bytes) :
    Errc × Bytes :=
  if ¬ e.initialized then
    (Errc.NotInitialized, [])
  else if key.length ≠ AES_GCM_KEY_SIZE_BYTES then
    (Errc.InvalidKey, [])
  else if inputBuffer.length < AES_GCM_IV_SIZE_BYTES + AES_GCM_TAG_SIZE_BYTES then
    (Errc.InvalidArgument, [])
  else
    -- split `inputBuffer` as `iv ++ ciphertext ++ tag`, where the
    -- ciphertext length is `|inputBuffer| - 12 - 16`
    match e.cipher.dec key
        (inputBuffer.take AES_GCM_IV_SIZE_BYTES)
        ((inputBuffer.drop AES_GCM_IV_SIZE_BYTES).take
          (inputBuffer.length - AES_GCM_IV_SIZE_BYTES - AES_GCM_TAG_SIZE_BYTES))
        (inputBuffer.drop (AES_GCM_IV_SIZE_BYTES +
          (inputBuffer.length - AES_GCM_IV_SIZE_BYTES - AES_GCM_TAG_SIZE_BYTES))) with
    | DecResult.ok pt => (Errc.Success, pt)
    | DecResult.authFail => (Errc.AuthenticationFailed, [])
    | DecResult.fail => (Errc.DecryptionFailed, [])

end Crypto

/-! ## `SecureStore` (src/src/SecureStorageManager.cpp, Storage part) -/

namespace Storage

/-- Constant `DATA_FILE_EXTENSION`. -/
def DATA_FILE_EXTENSION : Str := ".enc".toList
/-- Constant `BACKUP_FILE_EXTENSION`. -/
def BACKUP_FILE_EXTENSION : Str := ".bak".toList
/-- Constant `TEMP_FILE_SUFFIX`. -/
def TEMP_FILE_SUFFIX : Str := ".tmp".toList

/-- State of `Storage::SecureStore` after construction: the root path (with
trailing separator), the sticky initialization flag, the cached master
key and the owned encryptor. -/
structure SecureStore where
  rootStoragePath : Str
  initialized : Bool
  masterKey : Bytes
  encryptor : Crypto.Encryptor

/-- Embeds `SecureStore::getDataFilePath` — the MAIN slot `<root><id>.enc`. -/
def getDataFilePath (st : SecureStore) (data_id : Str) : Str :=
  st.rootStoragePath ++ data_id ++ DATA_FILE_EXTENSION

/-- Embeds `SecureStore::getBackupFilePath` — the BACKUP slot
`<root><id>.enc.bak`. -/
def getBackupFilePath (st : SecureStore) (data_id : Str) : Str :=
  st.rootStoragePath ++ data_id ++ DATA_FILE_EXTENSION ++ BACKUP_FILE_EXTENSION

/-- Embeds `SecureStore::getTempFilePath` — the staging slot
`<root><id>.enc.tmp`. -/
def getTempFilePath (st : SecureStore) (data_id : Str) : Str :=
  st.rootStoragePath ++ data_id ++ DATA_FILE_EXTENSION ++ TEMP_FILE_SUFFIX

/-- Embeds `SecureStore::validateDataId` — reject the empty id and any id
containing `/`, `\` or the substring `..`. -/
def validateDataId (data_id : Str) : Errc :=
  if data_id = [] then
    Errc.InvalidArgument
  else if strHasChar data_id '/' ∨ strHasChar data_id '\\' ∨ hasDotDot data_id then
    Errc.InvalidArgument
  else
    Errc.Success

/-- Embeds `SecureStore::storeData` (`SecureStorageManager.cpp:259-342`).
Returns the result code, the filesystem after the call, and the store
(the encryptor's DRBG may have advanced). -/
def storeData (env : Env) (st : SecureStore) (fs : Fs)
    (data_id : Str) (plain_data : Bytes) : Errc × Fs × SecureStore :=
  if ¬ st.initialized then
    (Errc.NotInitialized, fs, st)
  else if validateDataId data_id ≠ Errc.Success then
    (validateDataId data_id, fs, st)
  else
    let er := st.encryptor.encrypt plain_data st.masterKey
    let st' : SecureStore := { st with encryptor := er.2.2 }
    if er.1 ≠ Errc.Success then
      (er.1, fs, st')
    else
      let encrypted_data := er.2.1
      let main_file := getDataFilePath st data_id
      let backup_file := getBackupFilePath st data_id
      let temp_file := getTempFilePath st data_id
      -- Step 1: write encrypted data to the temporary file
      let w := FileUtil.atomicWriteFile env fs temp_file encrypted_data
      if w.1 ≠ Errc.Success then
        ((w.1 : Errc), (FileUtil.deleteFile w.2 temp_file).2, st')
      else
        -- Step 2: if the main file exists, move it to backup
        let fs2 :=
          if pathExists w.2 main_file then
            let fsA :=
              if pathExists w.2 backup_file then
                (FileUtil.deleteFile w.2 backup_file).2
              else w.2
            if env.failRename main_file backup_file then fsA
            else fsRename fsA main_file backup_file
          else w.2
        -- Step 3: move the temporary file to the main file
        if env.failRename temp_file main_file then
          let fs3 :=
            if pathExists fs2 backup_file ∧ ¬ pathExists fs2 main_file then
              if env.failRename backup_file main_file then fs2
              else fsRename fs2 backup_file main_file
            else fs2
          (Errc.FileRenameFailed, (FileUtil.deleteFile fs3 temp_file).2, st')
        else
          (Errc.Success, fsRename fs2 temp_file main_file, st')

/-- Embeds `SecureStore::retrieveData` (`SecureStorageManager.cpp:344-455`).
Returns the result code, the plaintext delivered to the caller, and the
filesystem after the call (the recovery path may heal MAIN). -/
def retrieveData (env : Env) (st : SecureStore) (fs : Fs)
    (data_id : Str) : Errc × Bytes × Fs :=
  if ¬ st.initialized then
    (Errc.NotInitialized, [], fs)
  else if validateDataId data_id ≠ Errc.Success then
    (validateDataId data_id, [], fs)
  else
    let main_file := getDataFilePath st data_id
    let backup_file := getBackupFilePath st data_id
    -- Stage 1: try the main file
    let mr := FileUtil.readFile fs main_file
    let mainDecrypted :=
      if mr.1 = Errc.Success then st.encryptor.decrypt mr.2 st.masterKey
      else (Errc.DecryptionFailed, [])
    if mr.1 = Errc.Success ∧ mainDecrypted.1 = Errc.Success then
      (Errc.Success, mainDecrypted.2, fs)
    else
      -- Stage 2: try the backup file
      let br := FileUtil.readFile fs backup_file
      if br.1 ≠ Errc.Success then
        (Errc.DataNotFound, [], fs)
      else
        let bd := st.encryptor.decrypt br.2 st.masterKey
        if bd.1 ≠ Errc.Success then
          (bd.1, [], fs)
        else
          -- delete a corrupted main file, then heal MAIN with the raw
          -- backup ciphertext; a failing heal only changes the log
          let fs1 :=
            if mr.1 = Errc.Success then (FileUtil.deleteFile fs main_file).2
            else fs
          let hw := FileUtil.atomicWriteFile env fs1 main_file br.2
          (Errc.Success, bd.2, hw.2)

/-- Embeds `SecureStore::deleteData` (`SecureStorageManager.cpp:457-493`). -/
def deleteData (st : SecureStore) (fs : Fs) (data_id : Str) : Errc × Fs :=
  if ¬ st.initialized then
    (Errc.NotInitialized, fs)
  else if validateDataId data_id ≠ Errc.Success then
    (validateDataId data_id, fs)
  else
    let main_file := getDataFilePath st data_id
    let backup_file := getBackupFilePath st data_id
    let main_existed := pathExists fs main_file
    let backup_existed := pathExists fs backup_file
    let d1 := FileUtil.deleteFile fs main_file
    let d2 := FileUtil.deleteFile d1.2 backup_file
    if d1.1 ≠ Errc.Success ∧ main_existed then (d1.1, d2.2)
    else if d2.1 ≠ Errc.Success ∧ backup_existed then (d2.1, d2.2)
    else (Errc.Success, d2.2)

/-- Embeds `SecureStore::dataExists` (`SecureStorageManager.cpp:495-503`). -/
def dataExists (st : SecureStore) (fs : Fs) (data_id : Str) : Bool :=
  if ¬ st.initialized then false
  else if validateDataId data_id ≠ Errc.Success then false
  else
    pathExists fs (getDataFilePath st data_id) ||
    pathExists fs (getBackupFilePath st data_id)

/-- Embeds `FileUtil::listDirectory` restricted to the storage root: the names
(not paths) of the regular files that are direct children of `root`.
An entry of the modelled filesystem is a direct child when its path is
`root ++ name` with `name` nonempty and free of `/`. -/
def listDirectory (fs : Fs) (root : Str) : List Str :=
  fs.filterMap (fun e =>
    if strStartsWith e.1 root then
      let name := e.1.drop root.length
      if name ≠ [] ∧ ¬ strHasChar name '/' then some name else none
    else none)

/-- The per-filename selection of `SecureStore::listDataIds`
(`SecureStorageManager.cpp:520-547`): keep a directory entry longer
than `.enc` that ends in `.enc`, unless it also ends in `.enc.bak`
(that guard can never fire on a name already ending in `.enc`); strip
the extension and drop ids that fail validation. -/
def dataIdOfFilename (filename : Str) : Option Str :=
  if filename.length > DATA_FILE_EXTENSION.length ∧
      strEndsWith filename DATA_FILE_EXTENSION then
    if filename.length > DATA_FILE_EXTENSION.length + BACKUP_FILE_EXTENSION.length ∧
        strEndsWith filename (DATA_FILE_EXTENSION ++ BACKUP_FILE_EXTENSION) then
      none
    else
      if validateDataId (filename.take
          (filename.length - DATA_FILE_EXTENSION.length)) = Errc.Success then
        some (filename.take (filename.length - DATA_FILE_EXTENSION.length))
      else none
  else none

/-- Embeds `SecureStore::listDataIds` (`SecureStorageManager.cpp:505-551`):
select data ids among the directory entries and sort. -/
def listDataIds (st : SecureStore) (fs : Fs) : Errc × List Str :=
  if ¬ st.initialized then
    (Errc.NotInitialized, [])
  else
    (Errc.Success,
      ((listDirectory fs st.rootStoragePath).filterMap dataIdOfFilename).mergeSort
        strLe)

end Storage

/-! ## `FileWatcher` (src/unnamed/part_008) -/

namespace FileWatcher

/-- Look a path up in `m_pathToWdMap` (`std::map<std::string,int>::find`). -/
def wdLookup : List (Str × Nat) → Str → Option Nat
  | [], _ => none
  | (q, wd) :: rest, p => if q = p then some wd else wdLookup rest p

/-- Erase a path from `m_pathToWdMap`. -/
def wdEraseByPath : List (Str × Nat) → Str → List (Str × Nat)
  | [], _ => []
  | (q, wd) :: rest, p =>
    if q = p then wdEraseByPath rest p else (q, wd) :: wdEraseByPath rest p

/-- Erase a watch descriptor from `m_wdToPathMap`. -/
def wdEraseByWd : List (Nat × Str) → Nat → List (Nat × Str)
  | [], _ => []
  | (w, q) :: rest, wd =>
    if w = wd then wdEraseByWd rest wd else (w, q) :: wdEraseByWd rest wd

/-- Observable state of `FileWatcher::FileWatcher` relevant to the watch
registry: the running flag, validity of the inotify descriptor
(`m_inotifyFd >= 0`), and the two registration maps. -/
structure Watcher where
  isRunning : Bool
  inotifyFdValid : Bool
  pathToWdMap : List (Str × Nat)
  wdToPathMap : List (Nat × Str)

/-- Embeds `FileWatcher::removeWatch`: reject
when not running, when inotify is uninitialized, or on an empty path;
report `false` when the path is not registered; otherwise drop the
registration from both maps (an `inotify_rm_watch` failure does not
prevent the map removal) and report `true`. -/
def removeWatch (w : Watcher) (path : Str) : Bool × Watcher :=
  if ¬ w.isRunning ∨ ¬ w.inotifyFdValid then
    (false, w)
  else if path = [] then
    (false, w)
  else
    match wdLookup w.pathToWdMap path with
    | none => (false, w)
    | some wd =>
      (true,
        { w with
          pathToWdMap := wdEraseByPath w.pathToWdMap path
          wdToPathMap := wdEraseByWd w.wdToPathMap wd })

end FileWatcher

/-! ## Concrete fixtures for witnesses and counterexamples -/

/-- A fault-free environment. -/
def noFailEnv : Env := ⟨fun _ => false, fun _ _ => false⟩

/-- A concrete AEAD core satisfying the GCM interface contract, used to
instantiate theorems on concrete inputs: the ciphertext is the plaintext
and the tag is sixteen zero bytes; decryption rejects any other tag. -/
def idCipher : Crypto.Cipher where
  enc := fun _ _ p => some (p, List.replicate 16 0)
  dec := fun _ _ ct tag =>
    if tag = List.replicate 16 0 then Crypto.DecResult.ok ct
    else Crypto.DecResult.authFail
  enc_ct_length := by intro k n p ct tag h; cases h; rfl
  enc_tag_length := by intro k n p ct tag h; cases h; rfl
  dec_enc := by intro k n p ct tag h; cases h; simp

/-- A seeded encryptor over `idCipher` whose DRBG always emits twelve
zero bytes. -/
def testEncryptor : Crypto.Encryptor :=
  ⟨idCipher, true, fun _ => List.replicate 12 0, 0⟩

/-- An initialized store rooted at `/tmp/T1/` with a 32-byte master key. -/
def testStore : Storage.SecureStore :=
  ⟨"/tmp/T1/".toList, true, List.replicate 32 0, testEncryptor⟩

/-- The same store with construction failed (`m_initialized == false`). -/
def uninitStore : Storage.SecureStore :=
  ⟨"/tmp/T1/".toList, false, List.replicate 32 0, testEncryptor⟩

/-- A filesystem whose only file is a tampered MAIN for `"cfg"`: a
29-byte blob whose tag does not authenticate under `idCipher`. -/
def tamperedFs : Fs :=
  [(Storage.getDataFilePath testStore "cfg".toList,
    List.replicate 12 0 ++ [7] ++ (List.replicate 15 0 ++ [9]))]

/-- The tampered MAIN of `tamperedFs` plus an intact BACKUP holding an
authentic encryption of `[1, 2, 3]`. -/
def recoveryFs : Fs :=
  [(Storage.getDataFilePath testStore "cfg".toList,
    List.replicate 12 0 ++ [7] ++ (List.replicate 15 0 ++ [9])),
   (Storage.getBackupFilePath testStore "cfg".toList,
    List.replicate 12 0 ++ [1, 2, 3] ++ List.replicate 16 0)]

/-- Does an action of an `atomicWriteFile` trace force data to stable
storage? -/
def FileUtil.isSyncAction : FileUtil.WAction → Bool
  | FileUtil.WAction.fsyncFile _ => true
  | FileUtil.WAction.fsyncDir _ => true
  | _ => false

/-! ## Basic lemmas about the filesystem model -/

theorem noFailEnv_noFail : noFailEnv.noFail :=
  ⟨fun _ => rfl, fun _ _ => rfl⟩

theorem fsLookup_fsErase_self (fs : Fs) (p : Str) :
    fsLookup (fsErase fs p) p = none := by
  induction fs with
  | nil => rfl
  | cons hd tl ih =>
    obtain ⟨q, d⟩ := hd
    by_cases h : q = p <;> simp [fsErase, fsLookup, h, ih]

theorem fsLookup_fsErase_ne (fs : Fs) {p q : Str} (h : q ≠ p) :
    fsLookup (fsErase fs p) q = fsLookup fs q := by
  induction fs with
  | nil => rfl
  | cons hd tl ih =>
    obtain ⟨r, d⟩ := hd
    by_cases hr : r = p
    · subst hr
      have hrq : ¬ r = q := fun hh => h (hh ▸ rfl)
      simp [fsErase, fsLookup, ih, hrq]
    · simp [fsErase, fsLookup, hr, ih]

theorem fsErase_of_absent (fs : Fs) {p : Str} (h : fsLookup fs p = none) :
    fsErase fs p = fs := by
  induction fs with
  | nil => rfl
  | cons hd tl ih =>
    obtain ⟨q, d⟩ := hd
    by_cases hq : q = p
    · simp [fsLookup, hq] at h
    · simp [fsLookup, hq] at h
      simp [fsErase, hq, ih h]

theorem fsLookup_fsInsert_self (fs : Fs) (p : Str) (d : Bytes) :
    fsLookup (fsInsert fs p d) p = some d := by
  simp [fsInsert, fsLookup]

theorem fsLookup_fsInsert_ne (fs : Fs) (d : Bytes) {p q : Str} (h : q ≠ p) :
    fsLookup (fsInsert fs p d) q = fsLookup fs q := by
  have : ¬ p = q := fun hh => h (hh ▸ rfl)
  simp [fsInsert, fsLookup, this, fsLookup_fsErase_ne fs h]

theorem fsLookup_fsRename_ne (fs : Fs) {a b q : Str}
    (hqa : q ≠ a) (hqb : q ≠ b) :
    fsLookup (fsRename fs a b) q = fsLookup fs q := by
  unfold fsRename
  cases h : fsLookup fs a with
  | none => rfl
  | some d =>
    rw [fsLookup_fsInsert_ne _ _ hqb, fsLookup_fsErase_ne _ hqa]

theorem fsLookup_fsRename_dst (fs : Fs) {a b : Str} {d : Bytes}
    (h : fsLookup fs a = some d) :
    fsLookup (fsRename fs a b) b = some d := by
  unfold fsRename
  rw [h]
  exact fsLookup_fsInsert_self _ _ _

theorem fsLookup_fsRename_src (fs : Fs) {a b : Str} (hab : a ≠ b) :
    fsLookup (fsRename fs a b) a = none := by
  unfold fsRename
  cases h : fsLookup fs a with
  | none => exact h
  | some d =>
    rw [fsLookup_fsInsert_ne _ _ hab, fsLookup_fsErase_self]

theorem deleteFile_snd (fs : Fs) {p : Str} (hp : p ≠ []) :
    (FileUtil.deleteFile fs p).2 = fsErase fs p := by
  unfold FileUtil.deleteFile
  simp only [hp, if_false]
  by_cases h : pathExists fs p
  · simp [h]
  · simp [h]
    unfold pathExists at h
    cases hl : fsLookup fs p with
    | none => exact (fsErase_of_absent fs hl).symm
    | some d => simp [hl] at h

/-! ## Generic list/string lemmas used by the path reasoning -/

theorem ne_append_right {α : Type} (a : List α) {s : List α} (h : s ≠ []) :
    a ≠ a ++ s := by
  intro he
  have : a.length = a.length + s.length := by
    conv_lhs => rw [he]
    simp
  have : s.length = 0 := by omega
  exact h (List.length_eq_zero.mp this)

theorem append_right_ne {α : Type} (a : List α) {s t : List α} (h : s ≠ t) :
    a ++ s ≠ a ++ t :=
  fun he => h (List.append_cancel_left he)

theorem append_ne_of_length_ne {α : Type} {a b : List α}
    (h : a.length ≠ b.length) : a ≠ b :=
  fun he => h (he ▸ rfl)

/-! ## Path facts for a record's three slots -/

namespace Storage

theorem backupFilePath_eq (st : SecureStore) (id : Str) :
    getBackupFilePath st id = getDataFilePath st id ++ BACKUP_FILE_EXTENSION := rfl

theorem tempFilePath_eq (st : SecureStore) (id : Str) :
    getTempFilePath st id = getDataFilePath st id ++ TEMP_FILE_SUFFIX := rfl

theorem main_ne_backup (st : SecureStore) (id : Str) :
    getDataFilePath st id ≠ getBackupFilePath st id := by
  rw [backupFilePath_eq]
  exact ne_append_right _ (by decide)

theorem main_ne_temp (st : SecureStore) (id : Str) :
    getDataFilePath st id ≠ getTempFilePath st id := by
  rw [tempFilePath_eq]
  exact ne_append_right _ (by decide)

theorem temp_ne_backup (st : SecureStore) (id : Str) :
    getTempFilePath st id ≠ getBackupFilePath st id := by
  rw [tempFilePath_eq, backupFilePath_eq]
  exact append_right_ne _ (by decide)

theorem backup_ne_nil (st : SecureStore) (id : Str) :
    getBackupFilePath st id ≠ [] := by
  unfold getBackupFilePath
  intro h
  rw [List.append_eq_nil] at h
  exact absurd h.2 (by decide)

theorem temp_ne_nil (st : SecureStore) (id : Str) :
    getTempFilePath st id ≠ [] := by
  unfold getTempFilePath
  intro h
  rw [List.append_eq_nil] at h
  exact absurd h.2 (by decide)

theorem main_ne_nil (st : SecureStore) (id : Str) :
    getDataFilePath st id ≠ [] := by
  unfold getDataFilePath
  intro h
  rw [List.append_eq_nil] at h
  exact absurd h.2 (by decide)

/-- The inner staging file of `atomicWriteFile` on the store's temp slot
(`<id>.enc.tmp.tmp`) is distinct from MAIN and BACKUP. -/
theorem awTemp_ne_main (st : SecureStore) (id : Str) :
    getTempFilePath st id ++ ".tmp".toList ≠ getDataFilePath st id := by
  apply append_ne_of_length_ne
  rw [tempFilePath_eq]
  simp [List.length_append]

theorem awTemp_ne_backup (st : SecureStore) (id : Str) :
    getTempFilePath st id ++ ".tmp".toList ≠ getBackupFilePath st id := by
  apply append_ne_of_length_ne
  rw [tempFilePath_eq, backupFilePath_eq]
  simp [List.length_append]
  decide

end Storage

/-! ## Behaviour of `atomicWriteFile` -/

namespace FileUtil

theorem atomicWriteFile_success_spec (env : Env) (fs : Fs) (p : Str) (d : Bytes)
    (h : (atomicWriteFile env fs p d).1 = Errc.Success) :
    p ≠ [] ∧
    (atomicWriteFile env fs p d).2 =
      fsRename (fsInsert fs (p ++ ".tmp".toList) d) (p ++ ".tmp".toList) p := by
  unfold atomicWriteFile atomicWriteFileT at h ⊢
  by_cases hp : p = []
  · rw [if_pos hp] at h; simp at h
  · rw [if_neg hp] at h ⊢
    by_cases ho : env.failOpenW (p ++ ".tmp".toList) = true
    · rw [if_pos ho] at h; simp at h
    · rw [if_neg ho] at h ⊢
      by_cases hr : env.failRename (p ++ ".tmp".toList) p = true
      · rw [if_pos hr] at h; simp at h
      · rw [if_neg hr]
        exact ⟨hp, rfl⟩

theorem atomicWriteFile_success_lookup_self (env : Env) (fs : Fs) (p : Str) (d : Bytes)
    (h : (atomicWriteFile env fs p d).1 = Errc.Success) :
    fsLookup (atomicWriteFile env fs p d).2 p = some d := by
  obtain ⟨hp, hfs⟩ := atomicWriteFile_success_spec env fs p d h
  rw [hfs]
  exact fsLookup_fsRename_dst _ (fsLookup_fsInsert_self _ _ _)

theorem atomicWriteFile_success_lookup_ne (env : Env) (fs : Fs) (p : Str) (d : Bytes)
    {q : Str} (h : (atomicWriteFile env fs p d).1 = Errc.Success)
    (hq : q ≠ p) (hqt : q ≠ p ++ ".tmp".toList) :
    fsLookup (atomicWriteFile env fs p d).2 q = fsLookup fs q := by
  obtain ⟨hp, hfs⟩ := atomicWriteFile_success_spec env fs p d h
  rw [hfs, fsLookup_fsRename_ne _ hqt hq, fsLookup_fsInsert_ne _ _ hqt]

end FileUtil

/-! ## Behaviour of the encryptor -/

namespace Crypto

theorem Encryptor.encrypt_success_spec (e : Encryptor) (pt key : Bytes)
    (h : (e.encrypt pt key).1 = Errc.Success) :
    e.initialized = true ∧ key.length = 32 ∧
    ∃ ct tag,
      e.cipher.enc key (e.rng e.ctr) pt = some (ct, tag) ∧
      e.encrypt pt key =
        (Errc.Success, e.rng e.ctr ++ ct ++ tag, { e with ctr := e.ctr + 1 }) := by
  unfold Encryptor.encrypt at h ⊢
  by_cases hinit : e.initialized = true
  · rw [if_neg (by simp [hinit])] at h ⊢
    by_cases hkey : key.length = AES_GCM_KEY_SIZE_BYTES
    · rw [if_neg (by simp [hkey])] at h ⊢
      refine ⟨hinit, hkey, ?_⟩
      cases henc : e.cipher.enc key (e.rng e.ctr) pt with
      | none => rw [henc] at h; simp at h
      | some cttag =>
        obtain ⟨ct, tag⟩ := cttag
        exact ⟨ct, tag, rfl, rfl⟩
    · rw [if_pos hkey] at h; simp at h
  · rw [if_pos hinit] at h; simp at h

theorem Encryptor.decrypt_frame (e : Encryptor) (key iv ct tag : Bytes)
    (hinit : e.initialized = true) (hkey : key.length = 32)
    (hiv : iv.length = 12) (htag : tag.length = 16) :
    e.decrypt (iv ++ ct ++ tag) key =
      match e.cipher.dec key iv ct tag with
      | DecResult.ok pt => (Errc.Success, pt)
      | DecResult.authFail => (Errc.AuthenticationFailed, [])
      | DecResult.fail => (Errc.DecryptionFailed, []) := by
  have hlen : (iv ++ ct ++ tag).length = 12 + ct.length + 16 := by
    simp only [List.length_append, hiv, htag]
  have hassoc : iv ++ ct ++ tag = iv ++ (ct ++ tag) := List.append_assoc iv ct tag
  have htake : (iv ++ ct ++ tag).take 12 = iv := by
    rw [hassoc]; exact List.take_left' hiv
  have hdrop : (iv ++ ct ++ tag).drop 12 = ct ++ tag := by
    rw [hassoc]; exact List.drop_left' hiv
  have hct : ((iv ++ ct ++ tag).drop 12).take ct.length = ct := by
    rw [hdrop]; exact List.take_left' rfl
  have htag2 : (iv ++ ct ++ tag).drop (12 + ct.length) = tag :=
    List.drop_left' (by simp only [List.length_append, hiv])
  unfold Encryptor.decrypt
  rw [if_neg (by simp [hinit]),
      if_neg (by simp [hkey, AES_GCM_KEY_SIZE_BYTES]),
      if_neg (by
        rw [hlen]
        simp only [AES_GCM_IV_SIZE_BYTES, AES_GCM_TAG_SIZE_BYTES]
        omega)]
  simp only [AES_GCM_IV_SIZE_BYTES, AES_GCM_TAG_SIZE_BYTES, hlen]
  have hsub : 12 + ct.length + 16 - 12 - 16 = ct.length := by omega
  rw [hsub, htake, hct, htag2]

end Crypto

/-! ## Behaviour of the store operations -/

namespace Storage

theorem readFile_of_lookup (fs : Fs) {p : Str} {d : Bytes}
    (hp : p ≠ []) (h : fsLookup fs p = some d) :
    FileUtil.readFile fs p = (Errc.Success, d) := by
  unfold FileUtil.readFile
  rw [if_neg hp, h]

/-- A successful `storeData` implies: the store was initialized, the id
valid, encryption succeeded, the store state only advanced the DRBG, and
MAIN now holds exactly the fresh ciphertext blob. -/
theorem storeData_success_spec (env : Env) (st : SecureStore) (fs : Fs)
    (id : Str) (p : Bytes)
    (h : (storeData env st fs id p).1 = Errc.Success) :
    st.initialized = true ∧ validateDataId id = Errc.Success ∧
    (st.encryptor.encrypt p st.masterKey).1 = Errc.Success ∧
    (storeData env st fs id p).2.2 =
      { st with encryptor := (st.encryptor.encrypt p st.masterKey).2.2 } ∧
    fsLookup (storeData env st fs id p).2.1 (getDataFilePath st id) =
      some (st.encryptor.encrypt p st.masterKey).2.1 := by
  simp only [storeData] at h ⊢
  by_cases hinit : st.initialized = true
  case neg => rw [if_pos hinit] at h; simp at h
  rw [if_neg (by simp [hinit])] at h ⊢
  by_cases hid : validateDataId id = Errc.Success
  case neg =>
    rw [if_pos hid] at h
    exact absurd h hid
  rw [if_neg (by simp [hid])] at h ⊢
  by_cases henc : (st.encryptor.encrypt p st.masterKey).1 = Errc.Success
  case neg =>
    rw [if_pos henc] at h
    exact absurd h henc
  rw [if_neg (by simp [henc])] at h ⊢
  by_cases hw : (FileUtil.atomicWriteFile env fs (getTempFilePath st id)
      (st.encryptor.encrypt p st.masterKey).2.1).1 = Errc.Success
  case neg =>
    rw [if_pos hw] at h
    exact absurd h hw
  rw [if_neg (by simp [hw])] at h ⊢
  by_cases hr : env.failRename (getTempFilePath st id) (getDataFilePath st id) = true
  case pos => rw [if_pos hr] at h; simp at h
  rw [if_neg hr]
  refine ⟨hinit, hid, henc, rfl, ?_⟩
  have hW : fsLookup (FileUtil.atomicWriteFile env fs (getTempFilePath st id)
        (st.encryptor.encrypt p st.masterKey).2.1).2 (getTempFilePath st id) =
      some (st.encryptor.encrypt p st.masterKey).2.1 :=
    FileUtil.atomicWriteFile_success_lookup_self _ _ _ _ hw
  apply fsLookup_fsRename_dst
  by_cases hm : pathExists (FileUtil.atomicWriteFile env fs (getTempFilePath st id)
      (st.encryptor.encrypt p st.masterKey).2.1).2 (getDataFilePath st id) = true
  · rw [if_pos hm]
    by_cases hrb : env.failRename (getDataFilePath st id) (getBackupFilePath st id) = true
    · rw [if_pos hrb]
      by_cases hbk : pathExists (FileUtil.atomicWriteFile env fs (getTempFilePath st id)
          (st.encryptor.encrypt p st.masterKey).2.1).2 (getBackupFilePath st id) = true
      · rw [if_pos hbk, deleteFile_snd _ (backup_ne_nil st id),
          fsLookup_fsErase_ne _ (temp_ne_backup st id)]
        exact hW
      · rw [if_neg hbk]; exact hW
    · rw [if_neg hrb,
        fsLookup_fsRename_ne _ (Ne.symm (main_ne_temp st id)) (temp_ne_backup st id)]
      by_cases hbk : pathExists (FileUtil.atomicWriteFile env fs (getTempFilePath st id)
          (st.encryptor.encrypt p st.masterKey).2.1).2 (getBackupFilePath st id) = true
      · rw [if_pos hbk, deleteFile_snd _ (backup_ne_nil st id),
          fsLookup_fsErase_ne _ (temp_ne_backup st id)]
        exact hW
      · rw [if_neg hbk]; exact hW
  · rw [if_neg hm]; exact hW

/-- In a fault-free run, a successful `storeData` over an existing MAIN
moves the old MAIN contents into BACKUP. -/
theorem storeData_success_backup (env : Env) (st : SecureStore) (fs : Fs)
    (id : Str) (p : Bytes)
    (henv : env.noFail)
    (h : (storeData env st fs id p).1 = Errc.Success)
    (hmain : pathExists fs (getDataFilePath st id) = true) :
    fsLookup (storeData env st fs id p).2.1 (getBackupFilePath st id) =
      fsLookup fs (getDataFilePath st id) := by
  simp only [storeData] at h ⊢
  by_cases hinit : st.initialized = true
  case neg => rw [if_pos hinit] at h; simp at h
  rw [if_neg (by simp [hinit])] at h ⊢
  by_cases hid : validateDataId id = Errc.Success
  case neg =>
    rw [if_pos hid] at h
    exact absurd h hid
  rw [if_neg (by simp [hid])] at h ⊢
  by_cases henc : (st.encryptor.encrypt p st.masterKey).1 = Errc.Success
  case neg =>
    rw [if_pos henc] at h
    exact absurd h henc
  rw [if_neg (by simp [henc])] at h ⊢
  by_cases hw : (FileUtil.atomicWriteFile env fs (getTempFilePath st id)
      (st.encryptor.encrypt p st.masterKey).2.1).1 = Errc.Success
  case neg =>
    rw [if_pos hw] at h
    exact absurd h hw
  rw [if_neg (by simp [hw])] at h ⊢
  rw [if_neg (by simp [henv.2 (getTempFilePath st id) (getDataFilePath st id)])]
  -- lookup of the old MAIN contents in the post-write state
  have hWmain : fsLookup (FileUtil.atomicWriteFile env fs (getTempFilePath st id)
        (st.encryptor.encrypt p st.masterKey).2.1).2 (getDataFilePath st id) =
      fsLookup fs (getDataFilePath st id) :=
    FileUtil.atomicWriteFile_success_lookup_ne _ _ _ _ hw
      (main_ne_temp st id) (Ne.symm (awTemp_ne_main st id))
  obtain ⟨d, hd⟩ : ∃ d, fsLookup fs (getDataFilePath st id) = some d := by
    unfold pathExists at hmain
    cases hl : fsLookup fs (getDataFilePath st id) with
    | none => rw [hl] at hmain; simp at hmain
    | some d => exact ⟨d, rfl⟩
  have hm2 : pathExists (FileUtil.atomicWriteFile env fs (getTempFilePath st id)
      (st.encryptor.encrypt p st.masterKey).2.1).2 (getDataFilePath st id) = true := by
    unfold pathExists
    rw [hWmain, hd]
    rfl
  rw [fsLookup_fsRename_ne _ (Ne.symm (temp_ne_backup st id)) (Ne.symm (main_ne_backup st id)),
    if_pos hm2,
    if_neg (by simp [henv.2 (getDataFilePath st id) (getBackupFilePath st id)])]
  have hFSA : fsLookup (if pathExists (FileUtil.atomicWriteFile env fs (getTempFilePath st id)
        (st.encryptor.encrypt p st.masterKey).2.1).2 (getBackupFilePath st id) = true then
        (FileUtil.deleteFile (FileUtil.atomicWriteFile env fs (getTempFilePath st id)
          (st.encryptor.encrypt p st.masterKey).2.1).2 (getBackupFilePath st id)).2
      else (FileUtil.atomicWriteFile env fs (getTempFilePath st id)
        (st.encryptor.encrypt p st.masterKey).2.1).2) (getDataFilePath st id) = some d := by
    by_cases hbk : pathExists (FileUtil.atomicWriteFile env fs (getTempFilePath st id)
        (st.encryptor.encrypt p st.masterKey).2.1).2 (getBackupFilePath st id) = true
    · rw [if_pos hbk, deleteFile_snd _ (backup_ne_nil st id),
        fsLookup_fsErase_ne _ (main_ne_backup st id), hWmain]
      exact hd
    · rw [if_neg hbk, hWmain]
      exact hd
  rw [fsLookup_fsRename_dst _ hFSA, hd]

/-- Errors other than `Success`, `FileOpenFailed` and `FileRenameFailed`
cannot come out of `atomicWriteFile` on a nonempty path. -/
theorem atomicWriteFile_err_cases (env : Env) (fs : Fs) (p : Str) (d : Bytes)
    (hp : p ≠ []) :
    (FileUtil.atomicWriteFile env fs p d).1 = Errc.Success ∨
    (FileUtil.atomicWriteFile env fs p d).1 = Errc.FileOpenFailed ∨
    (FileUtil.atomicWriteFile env fs p d).1 = Errc.FileRenameFailed := by
  unfold FileUtil.atomicWriteFile FileUtil.atomicWriteFileT
  rw [if_neg hp]
  by_cases ho : env.failOpenW (p ++ ".tmp".toList) = true
  · rw [if_pos ho]; right; left; rfl
  · rw [if_neg ho]
    by_cases hr : env.failRename (p ++ ".tmp".toList) p = true
    · rw [if_pos hr]; right; right; rfl
    · rw [if_neg hr]; left; rfl

/-- A failed `atomicWriteFile` leaves every path other than its own
temp file untouched. -/
theorem atomicWriteFile_fail_lookup (env : Env) (fs : Fs) (p : Str) (d : Bytes)
    {q : Str} (h : (FileUtil.atomicWriteFile env fs p d).1 ≠ Errc.Success)
    (hq : q ≠ p ++ ".tmp".toList) :
    fsLookup (FileUtil.atomicWriteFile env fs p d).2 q = fsLookup fs q := by
  unfold FileUtil.atomicWriteFile FileUtil.atomicWriteFileT at h ⊢
  by_cases hp : p = []
  · rw [if_pos hp]
  · rw [if_neg hp] at h ⊢
    by_cases ho : env.failOpenW (p ++ ".tmp".toList) = true
    · rw [if_pos ho]
    · rw [if_neg ho] at h ⊢
      by_cases hr : env.failRename (p ++ ".tmp".toList) p = true
      · rw [if_pos hr]
        dsimp only
        rw [fsLookup_fsErase_ne _ hq, fsLookup_fsInsert_ne _ _ hq]
      · rw [if_neg hr] at h
        exact absurd rfl h

/-- Retrieval served from a readable, decryptable MAIN. -/
theorem retrieveData_main_ok (env : Env) (st : SecureStore) (fs : Fs) (id : Str)
    (hinit : st.initialized = true) (hid : validateDataId id = Errc.Success)
    (hread : (FileUtil.readFile fs (getDataFilePath st id)).1 = Errc.Success)
    (hdec : (st.encryptor.decrypt (FileUtil.readFile fs (getDataFilePath st id)).2
      st.masterKey).1 = Errc.Success) :
    retrieveData env st fs id =
      (Errc.Success,
       (st.encryptor.decrypt (FileUtil.readFile fs (getDataFilePath st id)).2
         st.masterKey).2, fs) := by
  simp only [retrieveData]
  rw [if_neg (by simp [hinit]), if_neg (by simp [hid]),
    if_pos (⟨hread, by rw [if_pos hread]; exact hdec⟩ :
      _ ∧ (if (FileUtil.readFile fs (getDataFilePath st id)).1 = Errc.Success then
        st.encryptor.decrypt (FileUtil.readFile fs (getDataFilePath st id)).2 st.masterKey
        else (Errc.DecryptionFailed, [])).1 = Errc.Success),
    if_pos hread]

/-- When MAIN cannot be served and BACKUP cannot even be read, retrieval
reports `DataNotFound` and leaves the filesystem alone. -/
theorem retrieveData_backup_missing (env : Env) (st : SecureStore) (fs : Fs) (id : Str)
    (hinit : st.initialized = true) (hid : validateDataId id = Errc.Success)
    (hmain : ¬ ((FileUtil.readFile fs (getDataFilePath st id)).1 = Errc.Success ∧
      (st.encryptor.decrypt (FileUtil.readFile fs (getDataFilePath st id)).2
        st.masterKey).1 = Errc.Success))
    (hbr : (FileUtil.readFile fs (getBackupFilePath st id)).1 ≠ Errc.Success) :
    retrieveData env st fs id = (Errc.DataNotFound, [], fs) := by
  simp only [retrieveData]
  rw [if_neg (by simp [hinit]), if_neg (by simp [hid]),
    if_neg (fun hc => by
      obtain ⟨h1, h2⟩ := hc
      rw [if_pos h1] at h2
      exact hmain ⟨h1, h2⟩),
    if_pos hbr]

/-- When MAIN cannot be served and BACKUP reads but does not decrypt,
retrieval returns the backup decryption error verbatim and leaves the
filesystem alone. -/
theorem retrieveData_backup_bad (env : Env) (st : SecureStore) (fs : Fs) (id : Str)
    (hinit : st.initialized = true) (hid : validateDataId id = Errc.Success)
    (hmain : ¬ ((FileUtil.readFile fs (getDataFilePath st id)).1 = Errc.Success ∧
      (st.encryptor.decrypt (FileUtil.readFile fs (getDataFilePath st id)).2
        st.masterKey).1 = Errc.Success))
    (hbr : (FileUtil.readFile fs (getBackupFilePath st id)).1 = Errc.Success)
    (hbd : (st.encryptor.decrypt (FileUtil.readFile fs (getBackupFilePath st id)).2
      st.masterKey).1 ≠ Errc.Success) :
    retrieveData env st fs id =
      ((st.encryptor.decrypt (FileUtil.readFile fs (getBackupFilePath st id)).2
        st.masterKey).1, [], fs) := by
  simp only [retrieveData]
  rw [if_neg (by simp [hinit]), if_neg (by simp [hid]),
    if_neg (fun hc => by
      obtain ⟨h1, h2⟩ := hc
      rw [if_pos h1] at h2
      exact hmain ⟨h1, h2⟩),
    if_neg (by simp [hbr]),
    if_pos hbd]

/-- When MAIN cannot be served but BACKUP reads and decrypts, retrieval
succeeds with the backup plaintext, deletes a corrupt MAIN, and attempts
to heal MAIN with the raw backup ciphertext. -/
theorem retrieveData_recovery (env : Env) (st : SecureStore) (fs : Fs) (id : Str)
    (hinit : st.initialized = true) (hid : validateDataId id = Errc.Success)
    (hmain : ¬ ((FileUtil.readFile fs (getDataFilePath st id)).1 = Errc.Success ∧
      (st.encryptor.decrypt (FileUtil.readFile fs (getDataFilePath st id)).2
        st.masterKey).1 = Errc.Success))
    (hbr : (FileUtil.readFile fs (getBackupFilePath st id)).1 = Errc.Success)
    (hbd : (st.encryptor.decrypt (FileUtil.readFile fs (getBackupFilePath st id)).2
      st.masterKey).1 = Errc.Success) :
    retrieveData env st fs id =
      (Errc.Success,
       (st.encryptor.decrypt (FileUtil.readFile fs (getBackupFilePath st id)).2
         st.masterKey).2,
       (FileUtil.atomicWriteFile env
         (if (FileUtil.readFile fs (getDataFilePath st id)).1 = Errc.Success then
           (FileUtil.deleteFile fs (getDataFilePath st id)).2
          else fs)
         (getDataFilePath st id)
         (FileUtil.readFile fs (getBackupFilePath st id)).2).2) := by
  simp only [retrieveData]
  rw [if_neg (by simp [hinit]), if_neg (by simp [hid]),
    if_neg (fun hc => by
      obtain ⟨h1, h2⟩ := hc
      rw [if_pos h1] at h2
      exact hmain ⟨h1, h2⟩),
    if_neg (by simp [hbr]),
    if_neg (by simp [hbd])]

end Storage

/-! ## Claim theorems -/

open Storage Crypto FileUtil

/-- Claim C1: For every valid record id and every byte vector `p`, on an
initialized store, a successful `storeData(id, p)` followed immediately
by `retrieveData(id)` (with no intervening operations) returns `Success`
and yields exactly `p`. -/
theorem store_then_retrieve_roundTrip (env : Env) (st : SecureStore) (fs : Fs)
    (id : Str) (p : Bytes)
    (hrng : (st.encryptor.rng st.encryptor.ctr).length = 12)
    (h : (storeData env st fs id p).1 = Errc.Success) :
    (retrieveData env (storeData env st fs id p).2.2
      (storeData env st fs id p).2.1 id).1 = Errc.Success ∧
    (retrieveData env (storeData env st fs id p).2.2
      (storeData env st fs id p).2.1 id).2.1 = p := by
  obtain ⟨hinit, hid, henc, hst, hlk⟩ := storeData_success_spec env st fs id p h
  obtain ⟨heinit, hkey, ct, tag, hcenc, heq⟩ :=
    Encryptor.encrypt_success_spec _ _ _ henc
  have htag : tag.length = 16 := st.encryptor.cipher.enc_tag_length _ _ _ _ _ hcenc
  have hlk' : fsLookup (storeData env st fs id p).2.1 (getDataFilePath st id) =
      some (st.encryptor.rng st.encryptor.ctr ++ ct ++ tag) := by
    rw [hlk, heq]
  have hread := readFile_of_lookup _ (main_ne_nil st id) hlk'
  have hmain_eq : getDataFilePath (storeData env st fs id p).2.2 id =
      getDataFilePath st id := by rw [hst]; rfl
  have hinit' : (storeData env st fs id p).2.2.initialized = true := by
    rw [hst]; exact hinit
  have hkey' : (storeData env st fs id p).2.2.masterKey = st.masterKey := by
    rw [hst]
  have hencState : (storeData env st fs id p).2.2.encryptor =
      { st.encryptor with ctr := st.encryptor.ctr + 1 } := by
    rw [hst, heq]
  have hdec : (storeData env st fs id p).2.2.encryptor.decrypt
      (st.encryptor.rng st.encryptor.ctr ++ ct ++ tag) st.masterKey =
      (Errc.Success, p) := by
    rw [hencState,
      Encryptor.decrypt_frame { st.encryptor with ctr := st.encryptor.ctr + 1 }
        st.masterKey (st.encryptor.rng st.encryptor.ctr) ct tag
        heinit hkey hrng htag]
    dsimp only
    rw [st.encryptor.cipher.dec_enc _ _ _ _ _ hcenc]
  have hfinal := retrieveData_main_ok env (storeData env st fs id p).2.2
    (storeData env st fs id p).2.1 id hinit' hid
    (by rw [hmain_eq, hread])
    (by rw [hmain_eq, hread, hkey']; dsimp only; rw [hdec])
  rw [hfinal]
  refine ⟨rfl, ?_⟩
  dsimp only
  rw [hmain_eq, hread, hkey']
  dsimp only
  rw [hdec]

/-- Witness for C1 at a concrete input (`"cfg"`, bytes `[1,2,3]`). -/
theorem store_then_retrieve_roundTrip_witness :
    (testStore.encryptor.rng testStore.encryptor.ctr).length = 12 ∧
    (storeData noFailEnv testStore [] "cfg".toList [1, 2, 3]).1 = Errc.Success ∧
    ((retrieveData noFailEnv (storeData noFailEnv testStore [] "cfg".toList [1, 2, 3]).2.2
        (storeData noFailEnv testStore [] "cfg".toList [1, 2, 3]).2.1 "cfg".toList).1 =
        Errc.Success ∧
     (retrieveData noFailEnv (storeData noFailEnv testStore [] "cfg".toList [1, 2, 3]).2.2
        (storeData noFailEnv testStore [] "cfg".toList [1, 2, 3]).2.1 "cfg".toList).2.1 =
        [1, 2, 3]) :=
  ⟨rfl, rfl,
    store_then_retrieve_roundTrip noFailEnv testStore [] "cfg".toList [1, 2, 3] rfl rfl⟩

/-- Claim C2: For every valid id and plaintexts `p1`, `p2`, after a
successful `storeData(id, p1)` followed by a successful
`storeData(id, p2)` on an initialized store (fault-free environment),
the MAIN file `<id>.enc` decrypts under the master key to `p2` and the
BACKUP file `<id>.enc.bak` decrypts to `p1`. -/
theorem overwrite_invariant (env : Env) (st : SecureStore) (fs : Fs)
    (id : Str) (p1 p2 : Bytes)
    (henv : env.noFail)
    (hrng1 : (st.encryptor.rng st.encryptor.ctr).length = 12)
    (hrng2 : (st.encryptor.rng (st.encryptor.ctr + 1)).length = 12)
    (h1 : (storeData env st fs id p1).1 = Errc.Success)
    (h2 : (storeData env (storeData env st fs id p1).2.2
      (storeData env st fs id p1).2.1 id p2).1 = Errc.Success) :
    (FileUtil.readFile (storeData env (storeData env st fs id p1).2.2
        (storeData env st fs id p1).2.1 id p2).2.1 (getDataFilePath st id)).1 =
      Errc.Success ∧
    (storeData env (storeData env st fs id p1).2.2
        (storeData env st fs id p1).2.1 id p2).2.2.encryptor.decrypt
      (FileUtil.readFile (storeData env (storeData env st fs id p1).2.2
        (storeData env st fs id p1).2.1 id p2).2.1 (getDataFilePath st id)).2
      st.masterKey = (Errc.Success, p2) ∧
    (FileUtil.readFile (storeData env (storeData env st fs id p1).2.2
        (storeData env st fs id p1).2.1 id p2).2.1 (getBackupFilePath st id)).1 =
      Errc.Success ∧
    (storeData env (storeData env st fs id p1).2.2
        (storeData env st fs id p1).2.1 id p2).2.2.encryptor.decrypt
      (FileUtil.readFile (storeData env (storeData env st fs id p1).2.2
        (storeData env st fs id p1).2.1 id p2).2.1 (getBackupFilePath st id)).2
      st.masterKey = (Errc.Success, p1) := by
  obtain ⟨hinit1, hid, henc1, hst1, hlk1⟩ := storeData_success_spec env st fs id p1 h1
  obtain ⟨he1init, hkey, ct1, tag1, hcenc1, heq1⟩ :=
    Encryptor.encrypt_success_spec _ _ _ henc1
  have htag1 : tag1.length = 16 := st.encryptor.cipher.enc_tag_length _ _ _ _ _ hcenc1
  have hst1enc : (storeData env st fs id p1).2.2.encryptor =
      { st.encryptor with ctr := st.encryptor.ctr + 1 } := by rw [hst1, heq1]
  have hst1key : (storeData env st fs id p1).2.2.masterKey = st.masterKey := by rw [hst1]
  have hmain1 : getDataFilePath (storeData env st fs id p1).2.2 id =
      getDataFilePath st id := by rw [hst1]; rfl
  have hbak1 : getBackupFilePath (storeData env st fs id p1).2.2 id =
      getBackupFilePath st id := by rw [hst1]; rfl
  have hlk1' : fsLookup (storeData env st fs id p1).2.1 (getDataFilePath st id) =
      some (st.encryptor.rng st.encryptor.ctr ++ ct1 ++ tag1) := by rw [hlk1, heq1]
  -- unpack the second store
  obtain ⟨hinit2, hid2, henc2, hst2, hlk2⟩ :=
    storeData_success_spec env (storeData env st fs id p1).2.2
      (storeData env st fs id p1).2.1 id p2 h2
  rw [hst1enc, hst1key] at henc2
  obtain ⟨he2init, hkey2, ct2, tag2, hcenc2, heq2⟩ :=
    Encryptor.encrypt_success_spec _ _ _ henc2
  dsimp only at hcenc2 heq2 he2init
  have htag2 : tag2.length = 16 := st.encryptor.cipher.enc_tag_length _ _ _ _ _ hcenc2
  have hst2enc : (storeData env (storeData env st fs id p1).2.2
      (storeData env st fs id p1).2.1 id p2).2.2.encryptor =
      { st.encryptor with ctr := st.encryptor.ctr + 1 + 1 } := by
    rw [hst2, hst1enc, hst1key, heq2]
  have hlk2' : fsLookup (storeData env (storeData env st fs id p1).2.2
        (storeData env st fs id p1).2.1 id p2).2.1 (getDataFilePath st id) =
      some (st.encryptor.rng (st.encryptor.ctr + 1) ++ ct2 ++ tag2) := by
    rw [← hmain1, hlk2, hst1enc, hst1key, heq2]
  -- BACKUP after the second store holds the first store's MAIN
  have hmainExists : pathExists (storeData env st fs id p1).2.1
      (getDataFilePath (storeData env st fs id p1).2.2 id) = true := by
    unfold pathExists
    rw [hmain1, hlk1']
    rfl
  have hbk := storeData_success_backup env (storeData env st fs id p1).2.2
    (storeData env st fs id p1).2.1 id p2 henv h2 hmainExists
  rw [hmain1, hbak1, hlk1'] at hbk
  -- read both slots
  have hreadMain := readFile_of_lookup _ (main_ne_nil st id) hlk2'
  have hreadBak := readFile_of_lookup _ (backup_ne_nil st id) hbk
  -- decrypt MAIN to p2
  have hdec2 : (storeData env (storeData env st fs id p1).2.2
      (storeData env st fs id p1).2.1 id p2).2.2.encryptor.decrypt
      (st.encryptor.rng (st.encryptor.ctr + 1) ++ ct2 ++ tag2) st.masterKey =
      (Errc.Success, p2) := by
    rw [hst2enc,
      Encryptor.decrypt_frame { st.encryptor with ctr := st.encryptor.ctr + 1 + 1 }
        st.masterKey (st.encryptor.rng (st.encryptor.ctr + 1)) ct2 tag2
        he1init hkey hrng2 htag2]
    dsimp only
    rw [st.encryptor.cipher.dec_enc _ _ _ _ _ hcenc2]
  -- decrypt BACKUP to p1
  have hdec1 : (storeData env (storeData env st fs id p1).2.2
      (storeData env st fs id p1).2.1 id p2).2.2.encryptor.decrypt
      (st.encryptor.rng st.encryptor.ctr ++ ct1 ++ tag1) st.masterKey =
      (Errc.Success, p1) := by
    rw [hst2enc,
      Encryptor.decrypt_frame { st.encryptor with ctr := st.encryptor.ctr + 1 + 1 }
        st.masterKey (st.encryptor.rng st.encryptor.ctr) ct1 tag1
        he1init hkey hrng1 htag1]
    dsimp only
    rw [st.encryptor.cipher.dec_enc _ _ _ _ _ hcenc1]
  refine ⟨by rw [hreadMain], ?_, by rw [hreadBak], ?_⟩
  · rw [hreadMain]
    dsimp only
    rw [hdec2]
  · rw [hreadBak]
    dsimp only
    rw [hdec1]

/-- Witness for C2 at a concrete input (`"cfg"`, `[1,2,3]` then `[4,5]`). -/
theorem overwrite_invariant_witness :
    noFailEnv.noFail ∧
    (testStore.encryptor.rng testStore.encryptor.ctr).length = 12 ∧
    (testStore.encryptor.rng (testStore.encryptor.ctr + 1)).length = 12 ∧
    (storeData noFailEnv testStore [] "cfg".toList [1, 2, 3]).1 = Errc.Success ∧
    (storeData noFailEnv (storeData noFailEnv testStore [] "cfg".toList [1, 2, 3]).2.2
      (storeData noFailEnv testStore [] "cfg".toList [1, 2, 3]).2.1 "cfg".toList [4, 5]).1 =
      Errc.Success ∧
    (storeData noFailEnv (storeData noFailEnv testStore [] "cfg".toList [1, 2, 3]).2.2
        (storeData noFailEnv testStore [] "cfg".toList [1, 2, 3]).2.1 "cfg".toList
        [4, 5]).2.2.encryptor.decrypt
      (FileUtil.readFile (storeData noFailEnv
        (storeData noFailEnv testStore [] "cfg".toList [1, 2, 3]).2.2
        (storeData noFailEnv testStore [] "cfg".toList [1, 2, 3]).2.1 "cfg".toList
        [4, 5]).2.1 (getDataFilePath testStore "cfg".toList)).2
      testStore.masterKey = (Errc.Success, [4, 5]) ∧
    (storeData noFailEnv (storeData noFailEnv testStore [] "cfg".toList [1, 2, 3]).2.2
        (storeData noFailEnv testStore [] "cfg".toList [1, 2, 3]).2.1 "cfg".toList
        [4, 5]).2.2.encryptor.decrypt
      (FileUtil.readFile (storeData noFailEnv
        (storeData noFailEnv testStore [] "cfg".toList [1, 2, 3]).2.2
        (storeData noFailEnv testStore [] "cfg".toList [1, 2, 3]).2.1 "cfg".toList
        [4, 5]).2.1 (getBackupFilePath testStore "cfg".toList)).2
      testStore.masterKey = (Errc.Success, [1, 2, 3]) :=
  ⟨noFailEnv_noFail, rfl, rfl, rfl, rfl,
    (overwrite_invariant noFailEnv testStore [] "cfg".toList [1, 2, 3] [4, 5]
      noFailEnv_noFail rfl rfl rfl rfl).2.1,
    (overwrite_invariant noFailEnv testStore [] "cfg".toList [1, 2, 3] [4, 5]
      noFailEnv_noFail rfl rfl rfl rfl).2.2.2⟩

/-- Claim C3, counterexample: The claim states that when MAIN exists but
fails to decrypt and BACKUP is absent, `retrieveData` returns
`AuthenticationFailed` or `DecryptionFailed`.  At this concrete input
(MAIN present and failing authentication, BACKUP absent) the call
returns `DataNotFound`, which is neither, so the claim as stated is
false. -/
theorem retrieve_tampered_main_counterexample :
    pathExists tamperedFs (getDataFilePath testStore "cfg".toList) = true ∧
    (testStore.encryptor.decrypt
      (List.replicate 12 0 ++ [7] ++ (List.replicate 15 0 ++ [9]))
      testStore.masterKey).1 = Errc.AuthenticationFailed ∧
    pathExists tamperedFs (getBackupFilePath testStore "cfg".toList) = false ∧
    (retrieveData noFailEnv testStore tamperedFs "cfg".toList).1 = Errc.DataNotFound ∧
    Errc.DataNotFound ≠ Errc.AuthenticationFailed ∧
    Errc.DataNotFound ≠ Errc.DecryptionFailed :=
  ⟨rfl, rfl, rfl, rfl, by decide, by decide⟩

/-- Claim C3, amended: For every valid id on an initialized store, if
MAIN reads but fails to decrypt, and BACKUP is absent/unreadable or
reads but also fails to decrypt, then `retrieveData` does not return
`Success` and returns no plaintext: it reports `DataNotFound` when
BACKUP cannot be read, and the backup decryption error
(`AuthenticationFailed` or `DecryptionFailed` for a tampered file)
when BACKUP reads but fails to decrypt. -/
theorem retrieve_tampered_main_no_success (env : Env) (st : SecureStore) (fs : Fs)
    (id : Str)
    (hinit : st.initialized = true) (hid : validateDataId id = Errc.Success)
    (hmr : (FileUtil.readFile fs (getDataFilePath st id)).1 = Errc.Success)
    (hmd : (st.encryptor.decrypt (FileUtil.readFile fs (getDataFilePath st id)).2
      st.masterKey).1 ≠ Errc.Success)
    (hb : (FileUtil.readFile fs (getBackupFilePath st id)).1 ≠ Errc.Success ∨
      ((FileUtil.readFile fs (getBackupFilePath st id)).1 = Errc.Success ∧
       (st.encryptor.decrypt (FileUtil.readFile fs (getBackupFilePath st id)).2
         st.masterKey).1 ≠ Errc.Success)) :
    (retrieveData env st fs id).1 ≠ Errc.Success ∧
    retrieveData env st fs id =
      (if (FileUtil.readFile fs (getBackupFilePath st id)).1 = Errc.Success then
        ((st.encryptor.decrypt (FileUtil.readFile fs (getBackupFilePath st id)).2
          st.masterKey).1, [], fs)
       else (Errc.DataNotFound, [], fs)) := by
  have hmain : ¬ ((FileUtil.readFile fs (getDataFilePath st id)).1 = Errc.Success ∧
      (st.encryptor.decrypt (FileUtil.readFile fs (getDataFilePath st id)).2
        st.masterKey).1 = Errc.Success) := fun hc => hmd hc.2
  rcases hb with hb | ⟨hbr, hbd⟩
  · have he := retrieveData_backup_missing env st fs id hinit hid hmain hb
    rw [he, if_neg hb]
    exact ⟨by simp, rfl⟩
  · have he := retrieveData_backup_bad env st fs id hinit hid hmain hbr hbd
    rw [he, if_pos hbr]
    exact ⟨hbd, rfl⟩

/-- Witness for the amended C3: tampered MAIN, absent BACKUP. -/
theorem retrieve_tampered_main_no_success_witness :
    testStore.initialized = true ∧
    validateDataId "cfg".toList = Errc.Success ∧
    (FileUtil.readFile tamperedFs (getDataFilePath testStore "cfg".toList)).1 =
      Errc.Success ∧
    (retrieveData noFailEnv testStore tamperedFs "cfg".toList).1 ≠ Errc.Success ∧
    retrieveData noFailEnv testStore tamperedFs "cfg".toList =
      (if (FileUtil.readFile tamperedFs
          (getBackupFilePath testStore "cfg".toList)).1 = Errc.Success then
        ((testStore.encryptor.decrypt (FileUtil.readFile tamperedFs
            (getBackupFilePath testStore "cfg".toList)).2
          testStore.masterKey).1, [], tamperedFs)
       else (Errc.DataNotFound, [], tamperedFs)) := by
  refine ⟨rfl, rfl, rfl, ?_, ?_⟩
  · exact (retrieve_tampered_main_no_success noFailEnv testStore tamperedFs
      "cfg".toList rfl rfl rfl (by decide) (Or.inl (by decide))).1
  · exact (retrieve_tampered_main_no_success noFailEnv testStore tamperedFs
      "cfg".toList rfl rfl rfl (by decide) (Or.inl (by decide))).2

/-- Claim C4: For every valid id, if reading or decrypting MAIN fails but
BACKUP reads and decrypts successfully, `retrieveData` returns `Success`
with the backup's plaintext; it heals MAIN by atomically writing the raw
backup ciphertext (byte-identical, preserving nonce and tag), after
deleting a corrupt MAIN; and a failure of the healing write changes
neither the `Success` result nor the returned plaintext (the final state
is exactly the healing write's outcome, whatever its result code). -/
theorem retrieve_backup_recovery_heals (env : Env) (st : SecureStore) (fs : Fs)
    (id : Str)
    (hinit : st.initialized = true) (hid : validateDataId id = Errc.Success)
    (hmain : ¬ ((FileUtil.readFile fs (getDataFilePath st id)).1 = Errc.Success ∧
      (st.encryptor.decrypt (FileUtil.readFile fs (getDataFilePath st id)).2
        st.masterKey).1 = Errc.Success))
    (hbr : (FileUtil.readFile fs (getBackupFilePath st id)).1 = Errc.Success)
    (hbd : (st.encryptor.decrypt (FileUtil.readFile fs (getBackupFilePath st id)).2
      st.masterKey).1 = Errc.Success) :
    (retrieveData env st fs id).1 = Errc.Success ∧
    (retrieveData env st fs id).2.1 =
      (st.encryptor.decrypt (FileUtil.readFile fs (getBackupFilePath st id)).2
        st.masterKey).2 ∧
    (retrieveData env st fs id).2.2 =
      (FileUtil.atomicWriteFile env
        (if (FileUtil.readFile fs (getDataFilePath st id)).1 = Errc.Success then
          (FileUtil.deleteFile fs (getDataFilePath st id)).2
         else fs)
        (getDataFilePath st id)
        (FileUtil.readFile fs (getBackupFilePath st id)).2).2 ∧
    fsLookup (retrieveData env st fs id).2.2 (getDataFilePath st id) =
      (if (FileUtil.atomicWriteFile env
          (if (FileUtil.readFile fs (getDataFilePath st id)).1 = Errc.Success then
            (FileUtil.deleteFile fs (getDataFilePath st id)).2
           else fs)
          (getDataFilePath st id)
          (FileUtil.readFile fs (getBackupFilePath st id)).2).1 = Errc.Success then
        some (FileUtil.readFile fs (getBackupFilePath st id)).2
       else
        fsLookup (if (FileUtil.readFile fs (getDataFilePath st id)).1 = Errc.Success then
            (FileUtil.deleteFile fs (getDataFilePath st id)).2
           else fs)
          (getDataFilePath st id)) := by
  have he := retrieveData_recovery env st fs id hinit hid hmain hbr hbd
  rw [he]
  refine ⟨rfl, rfl, rfl, ?_⟩
  dsimp only
  by_cases hw : (FileUtil.atomicWriteFile env
      (if (FileUtil.readFile fs (getDataFilePath st id)).1 = Errc.Success then
        (FileUtil.deleteFile fs (getDataFilePath st id)).2
       else fs)
      (getDataFilePath st id)
      (FileUtil.readFile fs (getBackupFilePath st id)).2).1 = Errc.Success
  · rw [if_pos hw]
    exact FileUtil.atomicWriteFile_success_lookup_self _ _ _ _ hw
  · rw [if_neg hw]
    exact atomicWriteFile_fail_lookup _ _ _ _ hw
      (fun hc => ne_append_right (getDataFilePath st id) (by decide) hc)

/-- Witness for C4: tampered MAIN, intact BACKUP; recovery returns the
backup plaintext and heals MAIN with the raw backup bytes. -/
theorem retrieve_backup_recovery_heals_witness :
    (retrieveData noFailEnv testStore recoveryFs "cfg".toList).1 = Errc.Success ∧
    (retrieveData noFailEnv testStore recoveryFs "cfg".toList).2.1 =
      (testStore.encryptor.decrypt (FileUtil.readFile recoveryFs
        (getBackupFilePath testStore "cfg".toList)).2 testStore.masterKey).2 ∧
    fsLookup (retrieveData noFailEnv testStore recoveryFs "cfg".toList).2.2
      (getDataFilePath testStore "cfg".toList) =
      some (List.replicate 12 0 ++ [1, 2, 3] ++ List.replicate 16 0) := by
  refine ⟨?_, ?_, ?_⟩
  · exact (retrieve_backup_recovery_heals noFailEnv testStore recoveryFs
      "cfg".toList rfl rfl (by decide) rfl rfl).1
  · exact (retrieve_backup_recovery_heals noFailEnv testStore recoveryFs
      "cfg".toList rfl rfl (by decide) rfl rfl).2.1
  · have := (retrieve_backup_recovery_heals noFailEnv testStore recoveryFs
      "cfg".toList rfl rfl (by decide) rfl rfl).2.2.2
    rw [this]
    rfl

/-- An id that is empty, contains a path separator, or contains `..`
fails validation with `InvalidArgument`. -/
theorem validateDataId_invalid {id : Str}
    (hbad : id = [] ∨ strHasChar id '/' = true ∨ strHasChar id '\\' = true ∨
      hasDotDot id = true) :
    validateDataId id = Errc.InvalidArgument := by
  unfold validateDataId
  by_cases he : id = []
  · rw [if_pos he]
  · rw [if_neg he]
    rcases hbad with h | h | h | h
    · exact absurd h he
    · rw [if_pos (Or.inl h)]
    · rw [if_pos (Or.inr (Or.inl h))]
    · rw [if_pos (Or.inr (Or.inr h))]

/-- Claim C5: For every string id that is empty, or contains `/`, or
contains `\`, or contains the substring `..`, each of `storeData`,
`retrieveData` and `deleteData` on an initialized store returns
`InvalidArgument` and performs no filesystem change. -/
theorem invalid_id_rejected (env : Env) (st : SecureStore) (fs : Fs)
    (id : Str) (p : Bytes)
    (hinit : st.initialized = true)
    (hbad : id = [] ∨ strHasChar id '/' = true ∨ strHasChar id '\\' = true ∨
      hasDotDot id = true) :
    storeData env st fs id p = (Errc.InvalidArgument, fs, st) ∧
    retrieveData env st fs id = (Errc.InvalidArgument, [], fs) ∧
    deleteData st fs id = (Errc.InvalidArgument, fs) := by
  have hval := validateDataId_invalid hbad
  refine ⟨?_, ?_, ?_⟩
  · simp only [storeData]
    rw [if_neg (by simp [hinit]), if_pos (by simp [hval]), hval]
  · simp only [retrieveData]
    rw [if_neg (by simp [hinit]), if_pos (by simp [hval]), hval]
  · simp only [deleteData]
    rw [if_neg (by simp [hinit]), if_pos (by simp [hval]), hval]

/-- Witness for C5: the id `".."` on a nonempty filesystem. -/
theorem invalid_id_rejected_witness :
    testStore.initialized = true ∧
    hasDotDot "..".toList = true ∧
    (storeData noFailEnv testStore tamperedFs "..".toList [1] =
      (Errc.InvalidArgument, tamperedFs, testStore) ∧
    retrieveData noFailEnv testStore tamperedFs "..".toList =
      (Errc.InvalidArgument, [], tamperedFs) ∧
    deleteData testStore tamperedFs "..".toList =
      (Errc.InvalidArgument, tamperedFs)) :=
  ⟨rfl, rfl,
    invalid_id_rejected noFailEnv testStore tamperedFs "..".toList [1] rfl
      (Or.inr (Or.inr (Or.inr rfl)))⟩

/-- Claim C6: For every plaintext `p` and 32-byte key, a successful
`Encryptor::encrypt` produces an output buffer laid out exactly as a
12-byte nonce, then `|p|` bytes of ciphertext, then a 16-byte tag (the
ciphertext and tag being exactly the AEAD core's output), so its total
length is `28 + |p|`; encrypting the empty plaintext yields exactly 28
bytes (the concrete witness instantiates that successful empty
encryption). -/
theorem encrypt_blob_layout (e : Crypto.Encryptor) (pt key : Bytes)
    (hrng : (e.rng e.ctr).length = 12)
    (h : (e.encrypt pt key).1 = Errc.Success) :
    ((e.encrypt pt key).2.1).length = 28 + pt.length ∧
    ((e.encrypt pt key).2.1).take 12 = e.rng e.ctr ∧
    e.cipher.enc key (e.rng e.ctr) pt =
      some ((((e.encrypt pt key).2.1).drop 12).take pt.length,
            ((e.encrypt pt key).2.1).drop (12 + pt.length)) := by
  obtain ⟨hinit, hkey, ct, tag, hcenc, heq⟩ := Crypto.Encryptor.encrypt_success_spec _ _ _ h
  have hctlen : ct.length = pt.length := e.cipher.enc_ct_length _ _ _ _ _ hcenc
  have htaglen : tag.length = 16 := e.cipher.enc_tag_length _ _ _ _ _ hcenc
  have hblob : (e.encrypt pt key).2.1 = e.rng e.ctr ++ ct ++ tag := by rw [heq]
  have hassoc : e.rng e.ctr ++ ct ++ tag = e.rng e.ctr ++ (ct ++ tag) :=
    List.append_assoc _ _ _
  refine ⟨?_, ?_, ?_⟩
  · rw [hblob]
    simp only [List.length_append, hrng, hctlen, htaglen]
    omega
  · rw [hblob, hassoc]
    exact List.take_left' hrng
  · have hdrop12 : ((e.encrypt pt key).2.1).drop 12 = ct ++ tag := by
      rw [hblob, hassoc]
      exact List.drop_left' hrng
    have htake : (ct ++ tag).take pt.length = ct := by
      rw [← hctlen]
      exact List.take_left' rfl
    have hdropTag : ((e.encrypt pt key).2.1).drop (12 + pt.length) = tag := by
      rw [hblob]
      exact List.drop_left' (by simp only [List.length_append, hrng, hctlen])
    rw [hdrop12, htake, hdropTag]
    exact hcenc

/-- Witness for C6: empty plaintext under the concrete encryptor; the
call succeeds and the blob is exactly 28 bytes. -/
theorem encrypt_blob_layout_witness :
    (testEncryptor.rng testEncryptor.ctr).length = 12 ∧
    (testEncryptor.encrypt [] (List.replicate 32 0)).1 = Errc.Success ∧
    ((testEncryptor.encrypt [] (List.replicate 32 0)).2.1).length = 28 :=
  ⟨rfl, rfl,
    (encrypt_blob_layout testEncryptor [] (List.replicate 32 0) rfl rfl).1⟩

/-- Claim C7, counterexample: The claim states that `atomicWriteFile`
forces the temp file's data and metadata to stable storage
(fsync-equivalent) before closing it, and after the rename forces the
parent directory's metadata to stable storage.  At this concrete input
the call succeeds while its action trace contains no sync action at all
(the fsync of the file and of the directory are absent from the code,
which only flushes and closes the stream), so the claim as stated is
false. -/
theorem atomicWrite_no_sync_counterexample :
    (FileUtil.atomicWriteFileT noFailEnv [] "/tmp/T1/a.enc".toList [1, 2]).1 =
      Errc.Success ∧
    ((FileUtil.atomicWriteFileT noFailEnv [] "/tmp/T1/a.enc".toList
      [1, 2]).2.2).any FileUtil.isSyncAction = false :=
  ⟨rfl, rfl⟩

/-- Claim C7, amended: For every target path and byte vector, a
successful `atomicWriteFile` writes all bytes to `path + ".tmp"`,
flushes and closes the stream with no fsync of either the file or the
parent directory, renames the temp file onto the target path, and
leaves the target holding exactly the given bytes. -/
theorem atomicWrite_write_rename_no_sync (env : Env) (fs : Fs) (p : Str) (d : Bytes)
    (h : (FileUtil.atomicWriteFileT env fs p d).1 = Errc.Success) :
    (FileUtil.atomicWriteFileT env fs p d).2.2 =
      [FileUtil.WAction.openTmp (p ++ ".tmp".toList),
       FileUtil.WAction.writeBytes (p ++ ".tmp".toList) d,
       FileUtil.WAction.flushClose (p ++ ".tmp".toList),
       FileUtil.WAction.renameTo (p ++ ".tmp".toList) p] ∧
    ((FileUtil.atomicWriteFileT env fs p d).2.2).any FileUtil.isSyncAction = false ∧
    (FileUtil.atomicWriteFileT env fs p d).2.1 =
      fsRename (fsInsert fs (p ++ ".tmp".toList) d) (p ++ ".tmp".toList) p ∧
    fsLookup (FileUtil.atomicWriteFileT env fs p d).2.1 p = some d := by
  have hspec := FileUtil.atomicWriteFile_success_spec env fs p d h
  have hlk := FileUtil.atomicWriteFile_success_lookup_self env fs p d h
  refine ⟨?_, ?_, hspec.2, hlk⟩
  · unfold FileUtil.atomicWriteFileT at h ⊢
    rw [if_neg hspec.1] at h ⊢
    by_cases ho : env.failOpenW (p ++ ".tmp".toList) = true
    · rw [if_pos ho] at h; simp at h
    · rw [if_neg ho] at h ⊢
      by_cases hr : env.failRename (p ++ ".tmp".toList) p = true
      · rw [if_pos hr] at h; simp at h
      · rw [if_neg hr]
  · unfold FileUtil.atomicWriteFileT at h ⊢
    rw [if_neg hspec.1] at h ⊢
    by_cases ho : env.failOpenW (p ++ ".tmp".toList) = true
    · rw [if_pos ho] at h; simp at h
    · rw [if_neg ho] at h ⊢
      by_cases hr : env.failRename (p ++ ".tmp".toList) p = true
      · rw [if_pos hr] at h; simp at h
      · rw [if_neg hr]
        rfl

/-- Witness for the amended C7 at a concrete input. -/
theorem atomicWrite_write_rename_no_sync_witness :
    (FileUtil.atomicWriteFileT noFailEnv [] "/tmp/T1/b.enc".toList [3, 4]).1 =
      Errc.Success ∧
    fsLookup (FileUtil.atomicWriteFileT noFailEnv [] "/tmp/T1/b.enc".toList
      [3, 4]).2.1 "/tmp/T1/b.enc".toList = some [3, 4] :=
  ⟨rfl,
    (atomicWrite_write_rename_no_sync noFailEnv [] "/tmp/T1/b.enc".toList
      [3, 4] rfl).2.2.2⟩

/-- Claim C9, counterexample: The claim states that `removeWatch` on a
running watcher for an unregistered path succeeds (does not report
failure).  At this concrete input — a running watcher with no
registrations — the call returns `false`, the watcher's failure report,
so the claim as stated is false (the registrations are indeed left
unchanged). -/
theorem removeWatch_unregistered_counterexample :
    (FileWatcher.Watcher.mk true true [] []).isRunning = true ∧
    FileWatcher.wdLookup (FileWatcher.Watcher.mk true true [] []).pathToWdMap
      "/tmp/x".toList = none ∧
    FileWatcher.removeWatch (FileWatcher.Watcher.mk true true [] [])
      "/tmp/x".toList = (false, FileWatcher.Watcher.mk true true [] []) ∧
    (false : Bool) ≠ true :=
  ⟨rfl, rfl, rfl, by decide⟩

/-- Claim C9, amended: For every nonempty path, calling `removeWatch` on
a running watcher for a path that is not currently registered returns
`false` (the same failure report as other rejected calls) while leaving
the watcher — in particular both watch-registration maps — entirely
unchanged. -/
theorem removeWatch_unregistered_reports_false (w : FileWatcher.Watcher)
    (path : Str)
    (hrun : w.isRunning = true) (hfd : w.inotifyFdValid = true)
    (hpath : path ≠ [])
    (habs : FileWatcher.wdLookup w.pathToWdMap path = none) :
    FileWatcher.removeWatch w path = (false, w) := by
  unfold FileWatcher.removeWatch
  rw [if_neg (by simp [hrun, hfd]), if_neg hpath, habs]

/-- Witness for the amended C9: a running watcher registered on `"a"`,
probed with the unregistered path `"/tmp/x"`. -/
theorem removeWatch_unregistered_reports_false_witness :
    (FileWatcher.Watcher.mk true true [("a".toList, 5)] [(5, "a".toList)]).isRunning
      = true ∧
    FileWatcher.wdLookup (FileWatcher.Watcher.mk true true [("a".toList, 5)]
      [(5, "a".toList)]).pathToWdMap "/tmp/x".toList = none ∧
    FileWatcher.removeWatch
      (FileWatcher.Watcher.mk true true [("a".toList, 5)] [(5, "a".toList)])
      "/tmp/x".toList =
      (false, FileWatcher.Watcher.mk true true [("a".toList, 5)] [(5, "a".toList)]) :=
  ⟨rfl, rfl,
    removeWatch_unregistered_reports_false
      (FileWatcher.Watcher.mk true true [("a".toList, 5)] [(5, "a".toList)])
      "/tmp/x".toList rfl rfl (by decide) rfl⟩

/-- Claim C10: For every id and plaintext, if `storeData` returns before
its first disk write — failing with `NotInitialized`, `InvalidArgument`
(invalid id), or any encryption error (`InvalidKey`,
`EncryptionFailed`, or the encryptor's own `NotInitialized`) — then the
filesystem is exactly what it was before the call: no file is created,
modified, or deleted (encryption happens strictly before the temp-file
write). -/
theorem storeData_early_failure_pure (env : Env) (st : SecureStore) (fs : Fs)
    (id : Str) (p : Bytes)
    (h : (storeData env st fs id p).1 = Errc.NotInitialized ∨
         (storeData env st fs id p).1 = Errc.InvalidArgument ∨
         (storeData env st fs id p).1 = Errc.InvalidKey ∨
         (storeData env st fs id p).1 = Errc.EncryptionFailed) :
    (storeData env st fs id p).2.1 = fs := by
  simp only [storeData] at h ⊢
  by_cases hinit : st.initialized = true
  case neg => rw [if_pos hinit]
  rw [if_neg (by simp [hinit])] at h ⊢
  by_cases hid : validateDataId id = Errc.Success
  case neg => rw [if_pos hid]
  rw [if_neg (by simp [hid])] at h ⊢
  by_cases henc : (st.encryptor.encrypt p st.masterKey).1 = Errc.Success
  case neg => rw [if_pos henc]
  rw [if_neg (by simp [henc])] at h ⊢
  by_cases hw : (FileUtil.atomicWriteFile env fs (getTempFilePath st id)
      (st.encryptor.encrypt p st.masterKey).2.1).1 = Errc.Success
  case neg =>
    rw [if_pos hw] at h
    rcases atomicWriteFile_err_cases env fs (getTempFilePath st id)
      (st.encryptor.encrypt p st.masterKey).2.1 (temp_ne_nil st id) with hc | hc | hc
    · exact absurd hc hw
    · rw [hc] at h
      rcases h with h | h | h | h <;> simp at h
    · rw [hc] at h
      rcases h with h | h | h | h <;> simp at h
  rw [if_neg (by simp [hw])] at h ⊢
  by_cases hr : env.failRename (getTempFilePath st id) (getDataFilePath st id) = true
  · rw [if_pos hr] at h
    rcases h with h | h | h | h <;> simp at h
  · rw [if_neg hr] at h
    rcases h with h | h | h | h <;> simp at h

/-- Witness for C10: an uninitialized store fails with `NotInitialized`
and leaves the (nonempty) filesystem untouched. -/
theorem storeData_early_failure_pure_witness :
    (storeData noFailEnv uninitStore tamperedFs "cfg".toList [1]).1 =
      Errc.NotInitialized ∧
    (storeData noFailEnv uninitStore tamperedFs "cfg".toList [1]).2.1 = tamperedFs :=
  ⟨rfl,
    storeData_early_failure_pure noFailEnv uninitStore tamperedFs "cfg".toList [1]
      (Or.inl rfl)⟩

/-! ## Lemmas for the enumeration claim -/

theorem strLe_trans : ∀ a b c : Str,
    strLe a b = true → strLe b c = true → strLe a c = true := by
  intro a
  induction a with
  | nil => intro b c _ _; rfl
  | cons x xs ih =>
    intro b c hab hbc
    cases b with
    | nil => simp [strLe] at hab
    | cons y ys =>
      cases c with
      | nil => simp [strLe] at hbc
      | cons z zs =>
        simp only [strLe] at hab hbc ⊢
        by_cases hxy : x = y
        · subst hxy
          rw [if_pos rfl] at hab
          by_cases hxz : x = z
          · subst hxz
            rw [if_pos rfl] at hbc ⊢
            exact ih _ _ hab hbc
          · rw [if_neg hxz] at hbc ⊢
            exact hbc
        · rw [if_neg hxy] at hab
          have hlt1 : x < y := of_decide_eq_true hab
          by_cases hyz : y = z
          · subst hyz
            rw [if_neg hxy]
            exact hab
          · rw [if_neg hyz] at hbc
            have hlt2 : y < z := of_decide_eq_true hbc
            have hlt : x < z := lt_trans hlt1 hlt2
            rw [if_neg (ne_of_lt hlt)]
            exact decide_eq_true hlt

theorem strLe_total : ∀ a b : Str, (strLe a b || strLe b a) = true := by
  intro a
  induction a with
  | nil => intro b; simp [strLe]
  | cons x xs ih =>
    intro b
    cases b with
    | nil => simp [strLe]
    | cons y ys =>
      simp only [strLe]
      by_cases hxy : x = y
      · subst hxy
        rw [if_pos rfl, if_pos rfl]
        exact ih ys
      · rw [if_neg hxy, if_neg (Ne.symm hxy)]
        rcases lt_or_gt_of_ne hxy with h | h
        · simp [decide_eq_true h]
        · simp [decide_eq_true h]

theorem strHasChar_append (a b : Str) (c : Char) :
    strHasChar (a ++ b) c = (strHasChar a c || strHasChar b c) := by
  induction a with
  | nil => simp [strHasChar]
  | cons x xs ih =>
    simp only [List.cons_append, strHasChar]
    by_cases hx : x = c
    · rw [if_pos hx, if_pos hx]
      simp
    · rw [if_neg hx, if_neg hx]
      exact ih

theorem strStartsWith_append (root rest : Str) :
    strStartsWith (root ++ rest) root = true := by
  induction root with
  | nil => cases rest <;> rfl
  | cons x xs ih =>
    simp only [List.cons_append, strStartsWith, if_pos rfl]
    exact ih

theorem strStartsWith_decomp : ∀ (s root : Str),
    strStartsWith s root = true → s = root ++ s.drop root.length := by
  intro s root
  induction root generalizing s with
  | nil => intro _; simp
  | cons p ps ih =>
    intro h
    cases s with
    | nil => simp [strStartsWith] at h
    | cons c cs =>
      simp only [strStartsWith] at h
      by_cases hpc : p = c
      · subst hpc
        rw [if_pos rfl] at h
        have hcs := ih cs h
        simp only [List.length_cons, List.drop_succ_cons, List.cons_append]
        exact congrArg (p :: ·) hcs
      · rw [if_neg hpc] at h
        simp at h

theorem pathExists_iff_mem (fs : Fs) (p : Str) :
    pathExists fs p = true ↔ ∃ d, (p, d) ∈ fs := by
  induction fs with
  | nil => simp [pathExists, fsLookup]
  | cons hd tl ih =>
    obtain ⟨q, d⟩ := hd
    by_cases hq : q = p
    · subst hq
      have hstep : fsLookup ((q, d) :: tl) q = some d := by
        show (if q = q then some d else fsLookup tl q) = some d
        rw [if_pos rfl]
      unfold pathExists
      rw [hstep]
      constructor
      · intro _
        exact ⟨d, List.mem_cons_self _ _⟩
      · intro _
        rfl
    · have hstep : fsLookup ((q, d) :: tl) p = fsLookup tl p := by
        show (if q = p then some d else fsLookup tl p) = fsLookup tl p
        rw [if_neg hq]
      unfold pathExists
      unfold pathExists at ih
      rw [hstep, ih]
      constructor
      · rintro ⟨d', h⟩
        exact ⟨d', List.mem_cons_of_mem _ h⟩
      · rintro ⟨d', h⟩
        rcases List.mem_cons.mp h with h | h
        · exact absurd (congrArg Prod.fst h) (fun hh => hq hh.symm)
        · exact ⟨d', h⟩

theorem validateDataId_success_parts {id : Str}
    (h : validateDataId id = Errc.Success) :
    id ≠ [] ∧ strHasChar id '/' = false ∧ strHasChar id '\\' = false ∧
    hasDotDot id = false := by
  unfold validateDataId at h
  by_cases he : id = []
  · rw [if_pos he] at h; simp at h
  · rw [if_neg he] at h
    by_cases hc : strHasChar id '/' = true ∨ strHasChar id '\\' = true ∨
        hasDotDot id = true
    · rw [if_pos hc] at h; simp at h
    · have h1 : ¬ strHasChar id '/' = true := fun hh => hc (Or.inl hh)
      have h2 : ¬ strHasChar id '\\' = true := fun hh => hc (Or.inr (Or.inl hh))
      have h3 : ¬ hasDotDot id = true := fun hh => hc (Or.inr (Or.inr hh))
      simp only [Bool.not_eq_true] at h1 h2 h3
      exact ⟨he, h1, h2, h3⟩

theorem dataIdOfFilename_eq_some_iff (filename id : Str) :
    dataIdOfFilename filename = some id ↔
      (filename = id ++ DATA_FILE_EXTENSION ∧ validateDataId id = Errc.Success) := by
  constructor
  · intro h
    unfold dataIdOfFilename at h
    by_cases h1 : filename.length > DATA_FILE_EXTENSION.length ∧
        strEndsWith filename DATA_FILE_EXTENSION = true
    case neg => rw [if_neg h1] at h; simp at h
    rw [if_pos h1] at h
    by_cases h2 : filename.length >
        DATA_FILE_EXTENSION.length + BACKUP_FILE_EXTENSION.length ∧
        strEndsWith filename (DATA_FILE_EXTENSION ++ BACKUP_FILE_EXTENSION) = true
    case pos => rw [if_pos h2] at h; simp at h
    rw [if_neg h2] at h
    by_cases h3 : validateDataId (filename.take
        (filename.length - DATA_FILE_EXTENSION.length)) = Errc.Success
    case neg => rw [if_neg h3] at h; simp at h
    rw [if_pos h3] at h
    have hid : filename.take (filename.length - DATA_FILE_EXTENSION.length) = id :=
      Option.some.inj h
    have hend : filename.drop (filename.length - DATA_FILE_EXTENSION.length) =
        DATA_FILE_EXTENSION := of_decide_eq_true h1.2
    refine ⟨?_, ?_⟩
    · conv_lhs => rw [← List.take_append_drop
        (filename.length - DATA_FILE_EXTENSION.length) filename]
      rw [hid, hend]
    · rw [← hid]
      exact h3
  · rintro ⟨hfn, hval⟩
    subst hfn
    obtain ⟨hne, hs1, _, _⟩ := validateDataId_success_parts hval
    have h4 : DATA_FILE_EXTENSION.length = 4 := rfl
    have hlen : (id ++ DATA_FILE_EXTENSION).length = id.length + 4 := by
      rw [List.length_append, h4]
    have hpos : 0 < id.length := List.length_pos.mpr hne
    have hsub : (id ++ DATA_FILE_EXTENSION).length - DATA_FILE_EXTENSION.length =
        id.length := by
      rw [hlen, h4]
      omega
    unfold dataIdOfFilename
    have hc1 : (id ++ DATA_FILE_EXTENSION).length > DATA_FILE_EXTENSION.length := by
      rw [hlen, h4]
      omega
    have hc2 : strEndsWith (id ++ DATA_FILE_EXTENSION) DATA_FILE_EXTENSION = true := by
      unfold strEndsWith
      apply decide_eq_true
      rw [hsub]
      exact List.drop_left _ _
    rw [if_pos ⟨hc1, hc2⟩]
    have hnb : ¬ ((id ++ DATA_FILE_EXTENSION).length >
        DATA_FILE_EXTENSION.length + BACKUP_FILE_EXTENSION.length ∧
        strEndsWith (id ++ DATA_FILE_EXTENSION)
          (DATA_FILE_EXTENSION ++ BACKUP_FILE_EXTENSION) = true) := by
      rintro ⟨hbl, hbe⟩
      have hbe' := of_decide_eq_true hbe
      have h48 : (DATA_FILE_EXTENSION ++ BACKUP_FILE_EXTENSION).length = 8 := rfl
      have h44 : DATA_FILE_EXTENSION.length + BACKUP_FILE_EXTENSION.length = 8 := rfl
      rw [hlen, h44] at hbl
      have hgt : id.length > 4 := by omega
      have key : (id ++ DATA_FILE_EXTENSION).drop id.length =
          ((id ++ DATA_FILE_EXTENSION).drop (id.length - 4)).drop 4 := by
        rw [List.drop_drop]
        congr 1
        omega
      have e1 : (id ++ DATA_FILE_EXTENSION).drop id.length = DATA_FILE_EXTENSION :=
        List.drop_left _ _
      have e2 : (id ++ DATA_FILE_EXTENSION).drop (id.length - 4) =
          DATA_FILE_EXTENSION ++ BACKUP_FILE_EXTENSION := by
        rw [← hbe']
        congr 1
        rw [hlen, h48]
        omega
      rw [key, e2] at e1
      exact absurd e1 (by decide)
    rw [if_neg hnb]
    have htk : (id ++ DATA_FILE_EXTENSION).take
        ((id ++ DATA_FILE_EXTENSION).length - DATA_FILE_EXTENSION.length) = id := by
      rw [hsub]
      exact List.take_left _ _
    rw [htk, if_pos hval]

theorem mem_listDirectory_iff (fs : Fs) (root name : Str) :
    name ∈ listDirectory fs root ↔
      ((∃ d, (root ++ name, d) ∈ fs) ∧ name ≠ [] ∧
       strHasChar name '/' = false) := by
  unfold listDirectory
  rw [List.mem_filterMap]
  constructor
  · rintro ⟨e, he, hG⟩
    obtain ⟨q, d⟩ := e
    dsimp only at hG
    by_cases hsw : strStartsWith q root = true
    case neg => rw [if_neg hsw] at hG; simp at hG
    rw [if_pos hsw] at hG
    by_cases hcond : q.drop root.length ≠ [] ∧
        ¬ strHasChar (q.drop root.length) '/' = true
    case neg => rw [if_neg hcond] at hG; simp at hG
    rw [if_pos hcond] at hG
    have hname : q.drop root.length = name := Option.some.inj hG
    have hq : q = root ++ name := by
      have hdec := strStartsWith_decomp q root hsw
      rw [hname] at hdec
      exact hdec
    refine ⟨⟨d, hq ▸ he⟩, ?_, ?_⟩
    · rw [← hname]
      exact hcond.1
    · have h2 := hcond.2
      rw [hname] at h2
      simp only [Bool.not_eq_true] at h2
      exact h2
  · rintro ⟨⟨d, hmem⟩, hne, hns⟩
    refine ⟨(root ++ name, d), hmem, ?_⟩
    dsimp only
    have hdrop : (root ++ name).drop root.length = name := List.drop_left _ _
    rw [if_pos (strStartsWith_append root name), hdrop,
      if_pos ⟨hne, by simp [hns]⟩]

/-- Claim C8: On an initialized store, `listDataIds` succeeds, returns a
lexicographically sorted list, and that list holds exactly the valid
record ids whose MAIN file `<id>.enc` exists in the snapshot — names
ending in `.enc.bak` are excluded, so BACKUP-only records are omitted;
whereas `dataExists` returns true for a valid id whose BACKUP file
exists, even when MAIN is absent. -/
theorem listDataIds_exact_sorted (st : SecureStore) (fs : Fs) (id : Str)
    (hinit : st.initialized = true) :
    (listDataIds st fs).1 = Errc.Success ∧
    List.Pairwise (fun a b => strLe a b = true) (listDataIds st fs).2 ∧
    (id ∈ (listDataIds st fs).2 ↔
      (validateDataId id = Errc.Success ∧
       pathExists fs (getDataFilePath st id) = true)) ∧
    (validateDataId id = Errc.Success →
      pathExists fs (getBackupFilePath st id) = true →
      dataExists st fs id = true) := by
  have hres : listDataIds st fs =
      (Errc.Success,
        ((listDirectory fs st.rootStoragePath).filterMap dataIdOfFilename).mergeSort
          strLe) := by
    unfold listDataIds
    rw [if_neg (by simp [hinit])]
  refine ⟨by rw [hres], ?_, ?_, ?_⟩
  · rw [hres]
    exact List.sorted_mergeSort strLe_trans strLe_total _
  · rw [hres]
    dsimp only
    rw [List.mem_mergeSort, List.mem_filterMap]
    have hassoc : getDataFilePath st id =
        st.rootStoragePath ++ (id ++ DATA_FILE_EXTENSION) := by
      unfold getDataFilePath
      rw [List.append_assoc]
    constructor
    · rintro ⟨name, hnameMem, hF⟩
      obtain ⟨hfn, hval⟩ := (dataIdOfFilename_eq_some_iff name id).mp hF
      subst hfn
      obtain ⟨⟨d, hmem⟩, -, -⟩ :=
        (mem_listDirectory_iff fs st.rootStoragePath _).mp hnameMem
      refine ⟨hval, ?_⟩
      rw [hassoc]
      exact (pathExists_iff_mem _ _).mpr ⟨d, hmem⟩
    · rintro ⟨hval, hex⟩
      obtain ⟨hne, hs1, _, _⟩ := validateDataId_success_parts hval
      rw [hassoc] at hex
      obtain ⟨d, hmem⟩ := (pathExists_iff_mem _ _).mp hex
      refine ⟨id ++ DATA_FILE_EXTENSION, ?_,
        (dataIdOfFilename_eq_some_iff _ _).mpr ⟨rfl, hval⟩⟩
      apply (mem_listDirectory_iff fs st.rootStoragePath _).mpr
      refine ⟨⟨d, hmem⟩, ?_, ?_⟩
      · intro hh
        rw [List.append_eq_nil] at hh
        exact hne hh.1
      · rw [strHasChar_append, hs1]
        decide
  · intro hval hbk
    unfold dataExists
    rw [if_neg (by simp [hinit]), if_neg (by simp [hval]), hbk]
    simp

/-- Witness for C8: a snapshot holding `a.enc`, a BACKUP-only
`b.enc.bak`, and a non-record `x.txt`; the listing is exactly `["a"]`,
membership matches MAIN existence for `"a"`, and `dataExists` is true
for the BACKUP-only id `"b"`. -/
theorem listDataIds_exact_sorted_witness :
    testStore.initialized = true ∧
    ("a".toList ∈ (listDataIds testStore
        [("/tmp/T1/a.enc".toList, [1]), ("/tmp/T1/b.enc.bak".toList, [2]),
         ("/tmp/T1/x.txt".toList, [3])]).2 ↔
      (validateDataId "a".toList = Errc.Success ∧
       pathExists [("/tmp/T1/a.enc".toList, [1]), ("/tmp/T1/b.enc.bak".toList, [2]),
         ("/tmp/T1/x.txt".toList, [3])]
         (getDataFilePath testStore "a".toList) = true)) ∧
    (validateDataId "b".toList = Errc.Success →
      pathExists [("/tmp/T1/a.enc".toList, [1]), ("/tmp/T1/b.enc.bak".toList, [2]),
        ("/tmp/T1/x.txt".toList, [3])]
        (getBackupFilePath testStore "b".toList) = true →
      dataExists testStore [("/tmp/T1/a.enc".toList, [1]),
        ("/tmp/T1/b.enc.bak".toList, [2]), ("/tmp/T1/x.txt".toList, [3])]
        "b".toList = true) :=
  ⟨rfl,
    (listDataIds_exact_sorted testStore
      [("/tmp/T1/a.enc".toList, [1]), ("/tmp/T1/b.enc.bak".toList, [2]),
       ("/tmp/T1/x.txt".toList, [3])] "a".toList rfl).2.2.1,
    (listDataIds_exact_sorted testStore
      [("/tmp/T1/a.enc".toList, [1]), ("/tmp/T1/b.enc.bak".toList, [2]),
       ("/tmp/T1/x.txt".toList, [3])] "b".toList rfl).2.2.2⟩

end SecureStorage
